import Mathlib

/-!
# Caesar research CLI: transport wrapper, accessors, poll loops and commands

A shallow embedding of `internal/client/client.go`, `internal/client/types.go`,
`internal/config/config.go`, `internal/output/output.go` and of the commands
under `cmd/` with their two polling loops.

Modelling conventions.

* A Go `error` is represented by its text (`err.Error()`); `fmt.Errorf` with
  `%w`, `%v`, `%s` concatenates texts.
* A Go result pair `(*T, error)` / `([]T, error)` in which exactly one side is
  meaningful is an `Except String T`.
* The network is the environment.  `HTTPClient.Do` receives the requests this
  client has sent before and the request being sent, and gives the outcome of
  `c.httpClient.Do(req)`; every server behaviour is such a function.  The
  `World` records the requests handed to the HTTP client so far.
* The Go standard library (`encoding/json`, the validation in
  `net/http.NewRequest`) is a parameter, `Lib`.
* `pollResearch` and the loop of `chat send` can run forever in Go; the model
  runs a given number of passes and says whether the loop has ended within
  them.
* `output.ExitFunc` is `os.Exit`, its initial value, so a call of
  `output.Error` is the last thing a command does.
* Two rules of the standard library are written out from its documentation
  where a claim is about them: which members `encoding/json` writes for a
  struct (`omitempty`), and the scanning loop of `fmt` on formats whose
  directives have no width, precision or argument index.  `fmt` itself is a
  parameter of `output.Error`.
* The order in which `range` visits a Go map is a parameter of the code that
  ranges over one.
-/

namespace Caesar

/-! ## types.go -/

/-- A `time.Time` as presented in its own location: calendar date, wall clock
    reading, nanoseconds and zone offset. -/
structure Time where
  Year : Int
  Month : Nat
  Day : Nat
  Hour : Fin 24
  Minute : Fin 60
  Second : Fin 60
  Nanosecond : Nat
  Offset : Int
  deriving DecidableEq, Repr, Inhabited

structure Answer where
  QuestionID : String
  Answer : String
  deriving DecidableEq, Repr, Inhabited

structure CreateResearchRequest where
  Query : String
  BrainstormSessionID : String
  Answers : List Answer
  Files : List String
  CollectionIDs : List String
  ReasoningLoops : Int
  SourceTimeout : Int
  ReasoningMode : Bool
  AllowEarlyExit : Bool
  ExcludeSocial : Bool
  ExcludedDomains : List String
  Auto : Bool
  SystemPrompt : String
  Model : String
  deriving DecidableEq, Repr, Inhabited

structure CreateResearchResponse where
  ID : String
  Status : String
  deriving DecidableEq, Repr, Inhabited

structure ResearchResult where
  ID : String
  Title : String
  URL : String
  CitationIndex : Int
  deriving DecidableEq, Repr, Inhabited

structure ResearchObject where
  ID : String
  CreatedAt : Time
  Status : String
  Query : String
  Content : Option String
  TransformedContent : Option String
  ReasoningLoopsConsumed : Int
  RunningTime : Int
  Results : List ResearchResult
  deriving DecidableEq, Repr, Inhabited

structure ResearchEvent where
  Message : String
  CreatedAt : Time
  deriving DecidableEq, Repr, Inhabited

structure ResultContent where
  Content : String
  deriving DecidableEq, Repr, Inhabited

/-- The `Options` field is a Go `map[string]string`, given as its entries. -/
structure BrainstormQuestion where
  ID : String
  Question : String
  Options : List (String × String)
  deriving DecidableEq, Repr, Inhabited

structure BrainstormSession where
  ID : String
  Query : String
  Questions : List BrainstormQuestion
  Status : String
  CreatedAt : Time
  deriving DecidableEq, Repr, Inhabited

structure ChatMessage where
  ID : String
  Status : String
  Content : String
  Results : List ResearchResult
  deriving DecidableEq, Repr, Inhabited

structure Collection where
  ID : String
  Name : String
  Description : String
  CreatedAt : Time
  UpdatedAt : Time
  deriving DecidableEq, Repr, Inhabited

/-! ## HTTP requests, responses and the environment -/

/-- An `http.Header` restricted to single-valued keys, in insertion order.
    The two keys this program sets (`Authorization`, `Content-Type`) are
    already in canonical MIME form, so no key canonicalisation is modelled. -/
abbrev Header := List (String × String)

/-- Go `Header.Set`: replaces whatever is stored under `key`. -/
def Header.Set (h : Header) (key value : String) : Header :=
  h.filter (fun p => p.1 != key) ++ [(key, value)]

/-- Go `Header.Get`: the value stored under `key`, or `""`. -/
def Header.Get (h : Header) (key : String) : String :=
  match h.find? (fun p => p.1 == key) with
  | some p => p.2
  | none => ""

/-- Whether the header has an entry for `key` at all. -/
def Header.Has (h : Header) (key : String) : Bool :=
  h.any (fun p => p.1 == key)

/-- The part of an `http.Request` this program determines.  `Body = none` is a
    request without a body (`reqBody` left `nil`). -/
structure Request where
  Method : String
  URL : String
  Header : Header
  Body : Option String
  deriving DecidableEq, Repr, Inhabited

/-- An `http.Response`.  `Body` is the text that reading `resp.Body` yields
    (`io.ReadAll`, whose error the program discards, and the JSON decoders). -/
structure Response where
  StatusCode : Int
  Header : Header
  Body : String
  deriving DecidableEq, Repr, Inhabited

/-- The values passed as `body any` to `Client.do` in this repository: a
    `*CreateResearchRequest` or a `map[string]string` (given as its entries).
    The Go `nil` body is `none : Option Body`. -/
inductive Body where
  | researchRequest (req : CreateResearchRequest)
  | stringMap (entries : List (String × String))
  deriving DecidableEq, Repr

/-- The standard-library behaviour the client relies on. -/
structure Lib where
  /-- The function `json.Marshal`. -/
  Marshal : Body → Except String String
  /-- The error `http.NewRequest(method, url, _)` reports, if any. -/
  requestError : String → String → Option String
  /-- Each `json.NewDecoder(resp.Body).Decode(&result)`, by result type. -/
  decodeCreateResearchResponse : String → Except String CreateResearchResponse
  decodeResearchObject : String → Except String ResearchObject
  decodeResearchEvents : String → Except String (List ResearchEvent)
  decodeResultContent : String → Except String ResultContent
  decodeBrainstormSession : String → Except String BrainstormSession
  decodeChatMessage : String → Except String ChatMessage
  decodeChatMessages : String → Except String (List ChatMessage)
  decodeCollection : String → Except String Collection

/-- The `*http.Client`: the outcome of `Do(req)` given the requests sent
    before it. -/
structure HTTPClient where
  Do : List Request → Request → Except String Response

/-- Requests handed to the HTTP client so far, oldest first. -/
structure World where
  sent : List Request
  deriving DecidableEq, Repr, Inhabited

structure Client where
  httpClient : HTTPClient
  baseURL : String
  apiKey : String

/-! ## client.go -/

/-- Go `http.NewRequest`: fails as the library decides, otherwise a request
    with an empty header; an empty method means `GET`. -/
def NewRequest (lib : Lib) (method url : String) (body : Option String) :
    Except String Request :=
  match lib.requestError method url with
  | some err => .error err
  | none =>
    .ok { Method := if method = "" then "GET" else method, URL := url,
          Header := [], Body := body }

/-- Lines 57-64 of `Client.do`: `reqBody` stays `nil` for a `nil` body and is
    the marshalled text otherwise. -/
def marshalBody (lib : Lib) : Option Body → Except String (Option String)
  | none => .ok none
  | some b =>
    match lib.Marshal b with
    | .error err => .error ("marshal request: " ++ err)
    | .ok text => .ok (some text)

/-- Lines 57-73 of `Client.do`: the request handed to the HTTP client, or the
    error of the marshal or build phase. -/
def Client.buildRequest (lib : Lib) (c : Client) (method path : String)
    (body : Option Body) : Except String Request :=
  match marshalBody lib body with
  | .error err => .error err
  | .ok reqBody =>
    match NewRequest lib method (c.baseURL ++ path) reqBody with
    | .error err => .error ("create request: " ++ err)
    | .ok req0 =>
      let req1 : Request :=
        { req0 with Header := req0.Header.Set "Authorization" ("Bearer " ++ c.apiKey) }
      if body.isSome then
        .ok { req1 with Header := req1.Header.Set "Content-Type" "application/json" }
      else .ok req1

/-- The method `Client.do`: build the request, send it, classify the status
    code (lines 75-86). -/
def Client.do_ (lib : Lib) (c : Client) (method path : String)
    (body : Option Body) (w : World) : Except String Response × World :=
  match c.buildRequest lib method path body with
  | .error err => (.error err, w)
  | .ok req =>
    let w1 : World := { sent := w.sent ++ [req] }
    match c.httpClient.Do w.sent req with
    | .error err => (.error ("request failed: " ++ err), w1)
    | .ok resp =>
      if resp.StatusCode ≥ 400 then
        (.error ("API error " ++ toString resp.StatusCode ++ ": " ++ resp.Body), w1)
      else (.ok resp, w1)

/-- The decode step shared by the accessors. -/
def decodeWith {α : Type} (dec : String → Except String α) (resp : Response) :
    Except String α :=
  match dec resp.Body with
  | .error err => .error ("decode response: " ++ err)
  | .ok result => .ok result

/-- The accessor `Client.GetResearch`. -/
def Client.GetResearch (lib : Lib) (c : Client) (id : String) (w : World) :
    Except String ResearchObject × World :=
  match c.do_ lib "GET" ("/research/" ++ id) none w with
  | (.error err, w1) => (.error err, w1)
  | (.ok resp, w1) => (decodeWith lib.decodeResearchObject resp, w1)

/-- The accessor `Client.GetResearchEvents`. -/
def Client.GetResearchEvents (lib : Lib) (c : Client) (id : String) (w : World) :
    Except String (List ResearchEvent) × World :=
  match c.do_ lib "GET" ("/research/" ++ id ++ "/events") none w with
  | (.error err, w1) => (.error err, w1)
  | (.ok resp, w1) => (decodeWith lib.decodeResearchEvents resp, w1)

/-- The accessor `Client.CreateResearch`; `req` is the struct the pointer
    argument points to. -/
def Client.CreateResearch (lib : Lib) (c : Client) (req : CreateResearchRequest)
    (w : World) : Except String CreateResearchResponse × World :=
  match c.do_ lib "POST" "/research" (some (.researchRequest req)) w with
  | (.error err, w1) => (.error err, w1)
  | (.ok resp, w1) => (decodeWith lib.decodeCreateResearchResponse resp, w1)

/-- The path `GetResultContent` computes (lines 136-139). -/
def resultContentPath (researchID resultID format : String) : String :=
  let path := "/research/" ++ researchID ++ "/results/" ++ resultID ++ "/content"
  if format ≠ "" then path ++ ("?format=" ++ format) else path

/-- The accessor `Client.GetResultContent`. -/
def Client.GetResultContent (lib : Lib) (c : Client)
    (researchID resultID format : String) (w : World) :
    Except String ResultContent × World :=
  match c.do_ lib "GET" (resultContentPath researchID resultID format) none w with
  | (.error err, w1) => (.error err, w1)
  | (.ok resp, w1) => (decodeWith lib.decodeResultContent resp, w1)

/-- The accessor `Client.CreateBrainstorm`. -/
def Client.CreateBrainstorm (lib : Lib) (c : Client) (query : String) (w : World) :
    Except String BrainstormSession × World :=
  match c.do_ lib "POST" "/research/brainstorm" (some (.stringMap [("query", query)])) w with
  | (.error err, w1) => (.error err, w1)
  | (.ok resp, w1) => (decodeWith lib.decodeBrainstormSession resp, w1)

/-- The accessor `Client.CreateChatMessage`. -/
def Client.CreateChatMessage (lib : Lib) (c : Client) (researchID content : String)
    (w : World) : Except String ChatMessage × World :=
  match c.do_ lib "POST" ("/research/" ++ researchID ++ "/chat")
      (some (.stringMap [("content", content)])) w with
  | (.error err, w1) => (.error err, w1)
  | (.ok resp, w1) => (decodeWith lib.decodeChatMessage resp, w1)

/-- The accessor `Client.GetChatHistory`. -/
def Client.GetChatHistory (lib : Lib) (c : Client) (researchID : String) (w : World) :
    Except String (List ChatMessage) × World :=
  match c.do_ lib "GET" ("/research/" ++ researchID ++ "/chat") none w with
  | (.error err, w1) => (.error err, w1)
  | (.ok resp, w1) => (decodeWith lib.decodeChatMessages resp, w1)

/-- The accessor `Client.GetChatMessage`. -/
def Client.GetChatMessage (lib : Lib) (c : Client) (researchID messageID : String)
    (w : World) : Except String ChatMessage × World :=
  match c.do_ lib "GET" ("/research/" ++ researchID ++ "/chat/" ++ messageID) none w with
  | (.error err, w1) => (.error err, w1)
  | (.ok resp, w1) => (decodeWith lib.decodeChatMessage resp, w1)

/-- The accessor `Client.StreamChatMessage`: the raw result of `Client.do`. -/
def Client.StreamChatMessage (lib : Lib) (c : Client) (researchID messageID : String)
    (w : World) : Except String Response × World :=
  c.do_ lib "GET" ("/research/" ++ researchID ++ "/chat/" ++ messageID ++ "/stream") none w

/-- Assignment `m[key] = value` on a Go map given as its entries. -/
def mapSet (m : List (String × String)) (key value : String) : List (String × String) :=
  m.filter (fun p => p.1 != key) ++ [(key, value)]

/-- The map `CreateCollection` builds (lines 222-225). -/
def collectionBody (name description : String) : List (String × String) :=
  let body := [("name", name)]
  if description ≠ "" then mapSet body "description" description else body

/-- The accessor `Client.CreateCollection`. -/
def Client.CreateCollection (lib : Lib) (c : Client) (name description : String)
    (w : World) : Except String Collection × World :=
  match c.do_ lib "POST" "/research/collections"
      (some (.stringMap (collectionBody name description))) w with
  | (.error err, w1) => (.error err, w1)
  | (.ok resp, w1) => (decodeWith lib.decodeCollection resp, w1)

/-! ## What `encoding/json` writes for a request body

The members of the JSON object `json.Marshal` produces, as the package
documents them: one member per struct field under the name in its `json` tag,
left out when the tag says `omitempty` and the value is empty (false, 0, or a
string, slice or map of length 0); one member per entry of a map. -/

/-- The Go value of a struct field, by kind. -/
inductive FieldValue where
  | string (s : String)
  | int (n : Int)
  | bool (b : Bool)
  | strings (l : List String)
  | answers (l : List Answer)
  deriving DecidableEq, Repr

/-- The empty values of `omitempty`. -/
def FieldValue.isEmpty : FieldValue → Bool
  | .string s => s == ""
  | .int n => n == 0
  | .bool b => !b
  | .strings l => l.isEmpty
  | .answers l => l.isEmpty

/-- A struct field with its `json` tag. -/
structure Field where
  key : String
  omitempty : Bool
  value : FieldValue
  deriving DecidableEq, Repr

/-- The fields of `CreateResearchRequest` with their tags, in declaration
    order (types.go lines 5-20). -/
def CreateResearchRequest.fields (r : CreateResearchRequest) : List Field :=
  [ { key := "query", omitempty := false, value := .string r.Query },
    { key := "brainstorm_session_id", omitempty := true, value := .string r.BrainstormSessionID },
    { key := "answers", omitempty := true, value := .answers r.Answers },
    { key := "files", omitempty := true, value := .strings r.Files },
    { key := "collection_ids", omitempty := true, value := .strings r.CollectionIDs },
    { key := "reasoning_loops", omitempty := true, value := .int r.ReasoningLoops },
    { key := "source_timeout", omitempty := true, value := .int r.SourceTimeout },
    { key := "reasoning_mode", omitempty := true, value := .bool r.ReasoningMode },
    { key := "allow_early_exit", omitempty := true, value := .bool r.AllowEarlyExit },
    { key := "exclude_social", omitempty := true, value := .bool r.ExcludeSocial },
    { key := "excluded_domains", omitempty := true, value := .strings r.ExcludedDomains },
    { key := "auto", omitempty := true, value := .bool r.Auto },
    { key := "system_prompt", omitempty := true, value := .string r.SystemPrompt },
    { key := "model", omitempty := true, value := .string r.Model } ]

/-- The member names `json.Marshal` writes for a struct with these fields. -/
def marshalledKeys (fields : List Field) : List String :=
  (fields.filter (fun f => !(f.omitempty && f.value.isEmpty))).map (fun f => f.key)

/-- The member names of the JSON object that is the serialized `body`. -/
def Body.keys : Body → List String
  | .researchRequest req => marshalledKeys req.fields
  | .stringMap entries => entries.map (fun p => p.1)

/-! ## research.go: pollResearch -/

/-- Two decimal digits, as `Format` writes a clock field. -/
def pad2 (n : Nat) : String :=
  String.mk [Nat.digitChar (n / 10), Nat.digitChar (n % 10)]

/-- Go `t.Format(time.TimeOnly)`, layout `15:04:05`. -/
def Time.FormatTimeOnly (t : Time) : String :=
  pad2 t.Hour.val ++ ":" ++ pad2 t.Minute.val ++ ":" ++ pad2 t.Second.val

/-- The text of `fmt.Fprintf(w, "[%s] %s\n", e.CreatedAt.Format(time.TimeOnly), e.Message)`. -/
def formatEvent (e : ResearchEvent) : String :=
  "[" ++ e.CreatedAt.FormatTimeOnly ++ "] " ++ e.Message ++ "\n"

/-- The loop's variables and surroundings: `seenEvents`, the text written to
    the writer `w` by this call, and the requests sent. -/
structure PollState where
  seenEvents : Nat
  out : String
  world : World
  deriving DecidableEq, Repr, Inhabited

/-- The `for _, e := range events[seenEvents:]` loop. -/
def emitEvents (out : String) (events : List ResearchEvent) : String :=
  events.foldl (fun acc e => acc ++ formatEvent e) out

/-- Lines 144-149: what a round does with the outcome of the event fetch. -/
def mergeEvents (s : PollState) (fetched : Except String (List ResearchEvent))
    (w : World) : PollState :=
  match fetched with
  | .ok events =>
    if events.length > s.seenEvents then
      { seenEvents := events.length,
        out := emitEvents s.out (events.drop s.seenEvents),
        world := w }
    else { s with world := w }
  | .error _ => { s with world := w }

/-- Lines 151-156, the `switch res.Status`: the returned pair, or `none` when
    no case matches and the loop goes on. -/
def statusVerdict (id : String) (res : ResearchObject) :
    Option (Except String ResearchObject) :=
  if res.Status = "completed" then some (.ok res)
  else if res.Status = "failed" then
    some (.error ("research job " ++ id ++ " failed"))
  else none

/-- One pass through the body of the `for` loop of `pollResearch`: the state
    it leaves and, when the pass executes a `return`, the returned pair. -/
def pollRound (lib : Lib) (c : Client) (id : String) (s : PollState) :
    PollState × Option (Except String ResearchObject) :=
  match c.GetResearch lib id s.world with
  | (.error err, w1) => ({ s with world := w1 }, some (.error err))
  | (.ok res, w1) =>
    let fetched := c.GetResearchEvents lib id w1
    (mergeEvents s fetched.1 fetched.2, statusVerdict id res)

/-- The `for` loop run for at most `rounds` passes; `time.Sleep` changes
    nothing that is observed.  The second component is `none` while the loop
    has not returned. -/
def pollLoop (lib : Lib) (c : Client) (id : String) :
    Nat → PollState → PollState × Option (Except String ResearchObject)
  | 0, s => (s, none)
  | n + 1, s =>
    match pollRound lib c id s with
    | (s1, some r) => (s1, some r)
    | (s1, none) => pollLoop lib c id n s1

/-- Go `pollResearch(c, w, id)` observed for `rounds` passes, started with the
    requests `world` already sent. -/
def pollResearch (lib : Lib) (c : Client) (id : String) (world : World)
    (rounds : Nat) : PollState × Option (Except String ResearchObject) :=
  pollLoop lib c id rounds { seenEvents := 0, out := "", world := world }

/-! ## config.go and client.New -/

/-- The constant `config.BaseURL`. -/
def BaseURL : String := "https://api.caesar.xyz"

/-- The constant `config.EnvAPIKey`. -/
def EnvAPIKey : String := "CAESAR_API_KEY"

/-- The process environment: the value of each variable that is set. -/
abbrev Environ := String → Option String

/-- Go `os.Getenv`: the value, or `""` for a variable that is not set. -/
def Getenv (env : Environ) (name : String) : String :=
  (env name).getD ""

/-- The function `config.GetAPIKey`: the returned pair `(string, error)`, a
    nil error being `none`. -/
def GetAPIKey (env : Environ) : String × Option String :=
  let key := Getenv env EnvAPIKey
  if key = "" then
    ("", some ("environment variable " ++ EnvAPIKey ++ " is not set"))
  else (key, none)

/-- The function `client.New`; `net` is how the network answers the
    `http.Client` it creates. -/
def New (env : Environ) (net : HTTPClient) : Except String Client :=
  match GetAPIKey env with
  | (_, some err) => .error err
  | (apiKey, none) => .ok { httpClient := net, baseURL := BaseURL, apiKey := apiKey }

/-! ## output.go and the commands

`ExitFunc` is `os.Exit`, its initial value: a call of `output.Error` ends the
command.  The three sinks `output.Stdout`, `output.Stderr` and
`cmd.OutOrStdout()` are kept apart. -/

/-- What a command run has done so far. -/
structure Proc where
  world : World
  stdout : String
  stderr : String
  cmdOut : String
  exitCalls : List Int
  deriving DecidableEq, Repr, Inhabited

/-- The values the commands pass to `output.JSON`. -/
inductive Printable where
  | createResearchResponse (r : CreateResearchResponse)
  | researchObject (r : ResearchObject)
  | researchEvents (l : List ResearchEvent)
  | chatMessage (m : ChatMessage)
  | chatMessages (l : List ChatMessage)
  | collection (c : Collection)
  deriving DecidableEq, Repr

/-- The indenting `json.Encoder` of `output.JSON`: the text `Encode` writes,
    or its error. -/
abbrev Encoder := Printable → Except String String

/-- The function `output.JSON`. -/
def output.JSON (encode : Encoder) (v : Printable) (p : Proc) : Proc :=
  match encode v with
  | .ok text => { p with stdout := p.stdout ++ text }
  | .error err => { p with stderr := p.stderr ++ ("Error encoding output: " ++ err ++ "\n") }

/-- The call `output.Error("%v", err)`, the only form the commands use:
    `message` is the text of `err`. -/
def output.Error (message : String) (p : Proc) : Proc :=
  { p with stderr := p.stderr ++ ("Error: " ++ message ++ "\n"),
           exitCalls := p.exitCalls ++ [1] }

/-- The flags of `research create` as `init` declares them. -/
structure CreateFlags where
  loops : Int
  reasoning : Bool
  auto : Bool
  excludeSocial : Bool
  model : String
  systemPrompt : String
  excludeDomain : List String
  brainstorm : String
  noWait : Bool
  deriving DecidableEq, Repr

/-- The request `research create` fills in (research.go lines 49-57). -/
def CreateFlags.request (flags : CreateFlags) (query : String) : CreateResearchRequest :=
  { Query := query, BrainstormSessionID := flags.brainstorm, Answers := [], Files := [],
    CollectionIDs := [], ReasoningLoops := flags.loops, SourceTimeout := 0,
    ReasoningMode := flags.reasoning, AllowEarlyExit := false,
    ExcludeSocial := flags.excludeSocial, ExcludedDomains := flags.excludeDomain,
    Auto := flags.auto, SystemPrompt := flags.systemPrompt, Model := flags.model }

/-- The command `research create`, its polling observed for `rounds` passes;
    `none` while it is still polling.  `newClient` is what `newClient()`
    returns. -/
def researchCreateCmd (lib : Lib) (encode : Encoder) (newClient : Except String Client)
    (flags : CreateFlags) (query : String) (rounds : Nat) (p : Proc) : Option Proc :=
  match newClient with
  | .error err => some (output.Error err p)
  | .ok c =>
    match c.CreateResearch lib (flags.request query) p.world with
    | (.error err, w1) => some (output.Error err { p with world := w1 })
    | (.ok resp, w1) =>
      if flags.noWait then
        some (output.JSON encode (.createResearchResponse resp) { p with world := w1 })
      else
        match pollResearch lib c resp.ID w1 rounds with
        | (_, none) => none
        | (s, some (.error err)) =>
          some (output.Error err { p with world := s.world, cmdOut := p.cmdOut ++ s.out })
        | (s, some (.ok result)) =>
          some (output.JSON encode (.researchObject result)
            { p with world := s.world, cmdOut := p.cmdOut ++ s.out })

/-- The command `research get`. -/
def researchGetCmd (lib : Lib) (encode : Encoder) (newClient : Except String Client)
    (id : String) (p : Proc) : Proc :=
  match newClient with
  | .error err => output.Error err p
  | .ok c =>
    match c.GetResearch lib id p.world with
    | (.error err, w1) => output.Error err { p with world := w1 }
    | (.ok res, w1) => output.JSON encode (.researchObject res) { p with world := w1 }

/-- The command `research events`. -/
def researchEventsCmd (lib : Lib) (encode : Encoder) (newClient : Except String Client)
    (id : String) (p : Proc) : Proc :=
  match newClient with
  | .error err => output.Error err p
  | .ok c =>
    match c.GetResearchEvents lib id p.world with
    | (.error err, w1) => output.Error err { p with world := w1 }
    | (.ok events, w1) => output.JSON encode (.researchEvents events) { p with world := w1 }

/-- The command `research watch`, observed for `rounds` passes of its polling. -/
def researchWatchCmd (lib : Lib) (encode : Encoder) (newClient : Except String Client)
    (id : String) (rounds : Nat) (p : Proc) : Option Proc :=
  match newClient with
  | .error err => some (output.Error err p)
  | .ok c =>
    match pollResearch lib c id p.world rounds with
    | (_, none) => none
    | (s, some (.error err)) =>
      some (output.Error err { p with world := s.world, cmdOut := p.cmdOut ++ s.out })
    | (s, some (.ok result)) =>
      some (output.JSON encode (.researchObject result)
        { p with world := s.world, cmdOut := p.cmdOut ++ s.out })

/-- The loop `for msg.Status == "processing"` of `chat send` (chat.go lines
    50-56), run for at most `polls` passes: the message it ends with or the
    error that ends the command, and the requests sent; `none` while it is
    still looping. -/
def chatPoll (lib : Lib) (c : Client) (researchID : String) :
    Nat → ChatMessage → World → Option (Except String ChatMessage × World)
  | 0, msg, w =>
    if msg.Status = "processing" then none else some (.ok msg, w)
  | n + 1, msg, w =>
    if msg.Status = "processing" then
      match c.GetChatMessage lib researchID msg.ID w with
      | (.error err, w1) => some (.error err, w1)
      | (.ok next, w1) => chatPoll lib c researchID n next w1
    else some (.ok msg, w)

/-- The line `chat send` prints for one source. -/
def formatSource (r : ResearchResult) : String :=
  "  [" ++ toString r.CitationIndex ++ "] " ++ r.Title ++ " - " ++ r.URL ++ "\n"

/-- Lines 58-64 of chat.go: the text written for the final message. -/
def printChatMessage (out : String) (msg : ChatMessage) : String :=
  let out1 := out ++ (msg.Content ++ "\n")
  if msg.Results.length > 0 then
    msg.Results.foldl (fun acc r => acc ++ formatSource r) (out1 ++ "\nSources:\n")
  else out1

/-- The command `chat send`, its polling observed for `polls` passes. -/
def chatSendCmd (lib : Lib) (encode : Encoder) (newClient : Except String Client)
    (wait : Bool) (researchID message : String) (polls : Nat) (p : Proc) : Option Proc :=
  match newClient with
  | .error err => some (output.Error err p)
  | .ok c =>
    match c.CreateChatMessage lib researchID message p.world with
    | (.error err, w1) => some (output.Error err { p with world := w1 })
    | (.ok msg, w1) =>
      if !wait then some (output.JSON encode (.chatMessage msg) { p with world := w1 })
      else
        match chatPoll lib c researchID polls msg w1 with
        | none => none
        | some (.error err, w2) => some (output.Error err { p with world := w2 })
        | some (.ok final, w2) =>
          some { p with world := w2, cmdOut := printChatMessage p.cmdOut final }

/-- The command `chat history`. -/
def chatHistoryCmd (lib : Lib) (encode : Encoder) (newClient : Except String Client)
    (researchID : String) (p : Proc) : Proc :=
  match newClient with
  | .error err => output.Error err p
  | .ok c =>
    match c.GetChatHistory lib researchID p.world with
    | (.error err, w1) => output.Error err { p with world := w1 }
    | (.ok messages, w1) => output.JSON encode (.chatMessages messages) { p with world := w1 }

/-- The text `brainstorm` writes for the questions from number `i + 1` on
    (brainstorm.go lines 31-37); `visit` is the order in which `range` goes
    through a map's entries. -/
def printQuestions (visit : List (String × String) → List (String × String)) :
    Nat → List BrainstormQuestion → String → String
  | _, [], out => out
  | i, q :: rest, out =>
    let out1 := out ++ (toString (i + 1) ++ ". " ++ q.Question ++ "\n")
    let out2 := (visit q.Options).foldl
      (fun acc kv => acc ++ ("   " ++ kv.1 ++ ") " ++ kv.2 ++ "\n")) out1
    printQuestions visit (i + 1) rest (out2 ++ "\n")

/-- The command `brainstorm`. -/
def brainstormCmd (lib : Lib) (visit : List (String × String) → List (String × String))
    (newClient : Except String Client) (query : String) (p : Proc) : Proc :=
  match newClient with
  | .error err => output.Error err p
  | .ok c =>
    match c.CreateBrainstorm lib query p.world with
    | (.error err, w1) => output.Error err { p with world := w1 }
    | (.ok session, w1) =>
      let out1 := p.cmdOut ++ ("Brainstorm session: " ++ session.ID ++ "\n\n")
      let out2 := printQuestions visit 0 session.Questions out1
      { p with world := w1,
               cmdOut := out2 ++ ("Use this session ID with: caesar research create --brainstorm"
                 ++ " " ++ session.ID ++ " " ++ "\"your query\"" ++ "\n") }

/-- The command `collections create`; `description` is the flag's value. -/
def collectionsCreateCmd (lib : Lib) (encode : Encoder) (newClient : Except String Client)
    (description name : String) (p : Proc) : Proc :=
  match newClient with
  | .error err => output.Error err p
  | .ok c =>
    match c.CreateCollection lib name description p.world with
    | (.error err, w1) => output.Error err { p with world := w1 }
    | (.ok coll, w1) => output.JSON encode (.collection coll) { p with world := w1 }

/-! ## fmt and the general form of output.Error

`fmt` is the library, and the text it makes of a format and its operands is a
parameter, a `Formatter`.  What the package documents is written out for the
formats in which every directive is a `%`, flags and a verb: text outside
directives is copied, `%%` writes a percent sign, a directive takes the next
operand, a directive without operand writes `%!verb(MISSING)`, a format that
ends inside a directive writes `%!(NOVERB)`, and operands left over are listed
in a final `%!(EXTRA ...)` note.  How an operand prints under a directive is
the operand's and the library's business and is carried by the operand.  A
format with a width, a precision or an argument index in a directive is
outside this description: `scanFormat` gives no answer for it, and nothing is
assumed about what `fmt` makes of it. -/

/-- An operand of a formatting call: what `fmt` writes for it under a
    directive (the flags and the verb after the `%`), and its entry
    `type=value` in an `EXTRA` note. -/
structure Arg where
  print : String → String
  extra : String

/-- The functions `fmt.Sprintf` and `fmt.Fprintf` of the library: the text
    for a format and its operands. -/
abbrev Formatter := String → List Arg → String

/-- The flags of a directive: `#`, `0`, `+`, `-` and the blank. -/
def isFlagChar (ch : Char) : Bool :=
  ch == '#' || ch == '0' || ch == '+' || ch == '-' || ch == ' '

/-- After the flags, the characters that open a width, a precision or an
    argument index instead of being the verb. -/
def opensWidthOrIndex (ch : Char) : Bool :=
  ch.isDigit || ch == '.' || ch == '*' || ch == '['

/-- Where the scanning loop stands at the end of the format: the text
    written, the operands not used, and whether the format ended inside a
    directive. -/
structure Scan where
  out : String
  rest : List Arg
  cut : Bool

/-- The scanning loop of `doPrintf` on a format whose directives are a `%`,
    flags and a verb; `none` for any other format.  `directive` is `none`
    outside a directive and the flags read so far inside one. -/
def scanFormat : List Char → Option String → List Arg → String → Option Scan
  | [], none, args, out => some { out := out, rest := args, cut := false }
  | [], some _, args, out => some { out := out ++ "%!(NOVERB)", rest := args, cut := true }
  | ch :: rest, none, args, out =>
    if ch = '%' then scanFormat rest (some "") args out
    else scanFormat rest none args (out ++ String.singleton ch)
  | ch :: rest, some flags, args, out =>
    if isFlagChar ch then scanFormat rest (some (flags ++ String.singleton ch)) args out
    else if opensWidthOrIndex ch then none
    else if ch = '%' then scanFormat rest none args (out ++ "%")
    else
      match args with
      | [] => scanFormat rest none [] (out ++ ("%!" ++ String.singleton ch ++ "(MISSING)"))
      | a :: more => scanFormat rest none more (out ++ a.print (flags ++ String.singleton ch))

/-- The entries of an `EXTRA` note, separated by a comma and a blank. -/
def extraEntries : List Arg → String
  | [] => ""
  | [a] => a.extra
  | a :: more => a.extra ++ ", " ++ extraEntries more

/-- The text at the end of the scanning loop: what was written, and the
    `EXTRA` note when operands are left over. -/
def Scan.text (r : Scan) : String :=
  if r.rest.isEmpty then r.out else r.out ++ ("%!(EXTRA " ++ extraEntries r.rest ++ ")")

/-- What `fmt.Sprintf` gives, as documented, for a format whose directives are
    a `%`, flags and a verb; `none` for any other format. -/
def simpleSprintf (format : String) (args : List Arg) : Option String :=
  (scanFormat format.data none args "").map Scan.text

/-- The function `output.Error` for any format and operands (output.go lines
    29-32); `fmt` is `fmt.Fprintf`. -/
def output.ErrorArgs (fmt : Formatter) (format : String) (args : List Arg) (p : Proc) : Proc :=
  { p with stderr := p.stderr ++ fmt ("Error: " ++ format ++ "\n") args,
           exitCalls := p.exitCalls ++ [1] }

/-! ## Specification vocabulary -/

/-- The requests sent once one full poll round (status fetch, then event
    fetch) has been made from `w`. -/
def roundWorld (lib : Lib) (c : Client) (id : String) (w : World) : World :=
  (c.GetResearchEvents lib id (c.GetResearch lib id w).2).2

/-- The requests sent once `n` full poll rounds have been made from `w`. -/
def afterRounds (lib : Lib) (c : Client) (id : String) : Nat → World → World
  | 0, w => w
  | n + 1, w => roundWorld lib c id (afterRounds lib c id n w)

/-- What the status fetch of round `i` (the first round is round `0`)
    returns, for rounds made from `w`. -/
def statusFetch (lib : Lib) (c : Client) (id : String) (w : World) (i : Nat) :
    Except String ResearchObject :=
  (c.GetResearch lib id (afterRounds lib c id i w)).1

/-- What the event fetch of round `i` returns, for rounds made from `w`. -/
def eventsFetch (lib : Lib) (c : Client) (id : String) (w : World) (i : Nat) :
    Except String (List ResearchEvent) :=
  (c.GetResearchEvents lib id
    (c.GetResearch lib id (afterRounds lib c id i w)).2).1

/-- A status fetch that succeeded with a status the `switch` does not match. -/
def StillRunning (fetched : Except String ResearchObject) : Prop :=
  ∃ res, fetched = .ok res ∧ res.Status ≠ "completed" ∧ res.Status ≠ "failed"

/-- One line `[HH:MM:SS] message` per event, in list order. -/
def renderEvents : List ResearchEvent → String
  | [] => ""
  | e :: rest => formatEvent e ++ renderEvents rest

/-- A failed event fetch replaced by a successful fetch of the empty list. -/
def swallowed : Except String (List ResearchEvent) → Except String (List ResearchEvent)
  | .ok events => .ok events
  | .error _ => .ok []

/-- The text `s` has `t` as a contiguous part. -/
def Contains (s t : String) : Prop := ∃ pre post, s = pre ++ t ++ post

/-- The message `chat send` holds, and the requests sent, once `i` polls from
    the message `msg` have succeeded; `none` if one of them fails. -/
def chatAfter (lib : Lib) (c : Client) (researchID : String) :
    Nat → ChatMessage → World → Option (ChatMessage × World)
  | 0, msg, w => some (msg, w)
  | i + 1, msg, w =>
    match c.GetChatMessage lib researchID msg.ID w with
    | (.error _, _) => none
    | (.ok next, w1) => chatAfter lib c researchID i next w1

/-- Poll `i` succeeds and still shows the status `processing`. -/
def StillProcessing (lib : Lib) (c : Client) (researchID : String) (msg : ChatMessage)
    (w : World) (i : Nat) : Prop :=
  ∃ m w1, chatAfter lib c researchID i msg w = some (m, w1) ∧ m.Status = "processing"

/-- The URL has a query part: a `?` before any `#`. -/
def hasQuery (url : String) : Bool :=
  (url.data.takeWhile (fun ch => ch != '#')).contains '?'

/-- The text `t` begins the text `s`. -/
def StartsWith (s t : String) : Prop := ∃ rest, s = t ++ rest

/-- The accessor call went from log `w` to log `w1` by issuing exactly the one
    request `Client.do` builds from `method`, `path` and `body`, or, when that
    request cannot be built, by issuing none. -/
def IssuesListed (lib : Lib) (c : Client) (method path : String) (body : Option Body)
    (w w1 : World) : Prop :=
  (∃ req, c.buildRequest lib method path body = .ok req ∧ w1.sent = w.sent ++ [req] ∧
      req.Method = method ∧ req.URL = c.baseURL ++ path ∧ (req.Body = none ↔ body = none)) ∨
    ((∃ err, c.buildRequest lib method path body = .error err) ∧ w1.sent = w.sent)

/-- The context prefixes of the errors of `Client.do` and the accessors. -/
def errorPrefixes : List String :=
  ["marshal request: ", "create request: ", "request failed: ", "decode response: ",
   "API error "]

/-- The formatter gives what the package documents on every format whose
    directives are a `%`, flags and a verb. -/
def FollowsDocumentedScan (fmt : Formatter) : Prop :=
  ∀ (format : String) (args : List Arg) (text : String),
    simpleSprintf format args = some text → fmt format args = text

/-- Every directive of the format is a `%`, flags and a verb, the format uses
    up exactly its operands, and it does not end inside a directive. -/
def ConsumesExactly (format : String) (args : List Arg) : Prop :=
  ∃ r, scanFormat format.data none args "" = some r ∧ r.cut = false ∧ r.rest = []

/-- One line `  [<citation index>] <title> - <url>` per source, in list order. -/
def sourceLines : List ResearchResult → String
  | [] => ""
  | r :: rest =>
    ("  [" ++ toString r.CitationIndex ++ "] " ++ r.Title ++ " - " ++ r.URL ++ "\n")
      ++ sourceLines rest

/-- The section `chat send` is to print for the sources: nothing for an empty
    list, else a blank line, the heading and the source lines. -/
def sourcesSection (results : List ResearchResult) : String :=
  match results with
  | [] => ""
  | _ :: _ => "\nSources:\n" ++ sourceLines results

/-- The first `n` rounds of the poll loop were all made in full: each had a
    successful status fetch and each but the last left the loop running. -/
def RoundsRan (lib : Lib) (c : Client) (id : String) (w : World) (n : Nat) : Prop :=
  ∀ i, i < n → ∃ res, statusFetch lib c id w i = .ok res ∧
    (i + 1 < n → res.Status ≠ "completed" ∧ res.Status ≠ "failed")

/-- The length of the event list round `i` fetched, `0` when its event fetch
    failed. -/
def fetchedLength (lib : Lib) (c : Client) (id : String) (w : World) (i : Nat) : Nat :=
  match eventsFetch lib c id w i with
  | .ok events => events.length
  | .error _ => 0

/-- The greatest length among the event lists of the first `n` rounds. -/
def maxFetched (lib : Lib) (c : Client) (id : String) (w : World) : Nat → Nat
  | 0 => 0
  | n + 1 => max (maxFetched lib c id w n) (fetchedLength lib c id w n)

/-- The events a purely positional diff has written after `n` rounds: each
    round adds what its list holds beyond the number written before. -/
def writtenEvents (lib : Lib) (c : Client) (id : String) (w : World) :
    Nat → List ResearchEvent
  | 0 => []
  | n + 1 =>
    match eventsFetch lib c id w n with
    | .ok events =>
      writtenEvents lib c id w n ++ events.drop (writtenEvents lib c id w n).length
    | .error _ => writtenEvents lib c id w n

/-! ## Concrete environments -/

namespace Demo

/-- A library whose JSON is a toy: a job record's text is its status, an event
    list's text is the number of events, and every request can be built. -/
def lib : Lib where
  Marshal := fun _ => .ok "json"
  requestError := fun _ _ => none
  decodeCreateResearchResponse := fun _ => .error "unexpected end of JSON input"
  decodeResearchObject := fun text =>
    .ok { ID := "r1", CreatedAt := default, Status := text, Query := "",
          Content := none, TransformedContent := none,
          ReasoningLoopsConsumed := 0, RunningTime := 0, Results := [] }
  decodeResearchEvents := fun text =>
    let noon (sec : Fin 60) : Time :=
      { Year := 2025, Month := 1, Day := 1, Hour := 12, Minute := 0, Second := sec,
        Nanosecond := 0, Offset := 0 }
    if text = "0" then .ok []
    else if text = "1" then .ok [{ Message := "Searching...", CreatedAt := noon 0 }]
    else if text = "2" then
      .ok [{ Message := "Searching...", CreatedAt := noon 0 },
           { Message := "Analyzing...", CreatedAt := noon 1 }]
    else .error "invalid character"
  decodeResultContent := fun _ => .error "unexpected end of JSON input"
  decodeBrainstormSession := fun _ => .error "unexpected end of JSON input"
  decodeChatMessage := fun _ => .error "unexpected end of JSON input"
  decodeChatMessages := fun _ => .error "unexpected end of JSON input"
  decodeCollection := fun _ => .error "unexpected end of JSON input"

/-- A client of the server that answers every request with `answer`. -/
def clientOf (answer : List Request → Request → Except String Response) : Client :=
  { httpClient := { Do := answer }, baseURL := "http://srv", apiKey := "test-key" }

/-- A response with status 200 and the given body. -/
def ok200 (body : String) : Response := { StatusCode := 200, Header := [], Body := body }

/-- The server of the polling scenario: one event for the first two rounds and
    a running job, then two events and a completed job. -/
def growingServer : List Request → Request → Except String Response :=
  fun sentBefore req =>
    if req.URL = "http://srv/research/r1/events" then
      .ok (ok200 (if sentBefore.length < 4 then "1" else "2"))
    else
      .ok (ok200 (if sentBefore.length < 4 then "searching" else "completed"))

/-- A response with status 400, as in `TestDo_HTTPError`. -/
def badRequest : Response := { StatusCode := 400, Header := [], Body := "invalid input" }

/-- A response with status 300 and a body. -/
def multipleChoices : Response := { StatusCode := 300, Header := [], Body := "pick one" }

/-- The request `do("GET", "/test", nil)` builds for `clientOf`. -/
def getTest : Request :=
  { Method := "GET", URL := "http://srv/test",
    Header := [("Authorization", "Bearer test-key")], Body := none }

/-- The request `do("POST", "/test", body)` builds for `clientOf` and `lib`. -/
def postTest : Request :=
  { Method := "POST", URL := "http://srv/test",
    Header := [("Authorization", "Bearer test-key"), ("Content-Type", "application/json")],
    Body := some "json" }

/-- The server of `TestPollResearch_FailedJob`: no events, a failed job. -/
def failedServer : List Request → Request → Except String Response :=
  fun _ req =>
    if req.URL = "http://srv/research/r1/events" then .ok (ok200 "0")
    else .ok (ok200 "failed")

/-- A server whose job status is, round after round, the empty string,
    `queued` and `Completed`, and `running` from then on. -/
def oddStatusServer : List Request → Request → Except String Response :=
  fun sentBefore req =>
    if req.URL = "http://srv/research/r1/events" then .ok (ok200 "0")
    else if sentBefore.length < 2 then .ok (ok200 "")
    else if sentBefore.length < 4 then .ok (ok200 "queued")
    else if sentBefore.length < 6 then .ok (ok200 "Completed")
    else .ok (ok200 "running")

/-- A server that answers the first round and then refuses connections. -/
def vanishingServer : List Request → Request → Except String Response :=
  fun sentBefore req =>
    if sentBefore.length < 2 then
      if req.URL = "http://srv/research/r1/events" then .ok (ok200 "1")
      else .ok (ok200 "searching")
    else .error "connection refused"

/-- A server whose event endpoint answers 500 in the first round and one
    event afterwards; the job completes in the second round. -/
def brokenEventsServer : List Request → Request → Except String Response :=
  fun sentBefore req =>
    if req.URL = "http://srv/research/r1/events" then
      if sentBefore.length < 2 then
        .ok { StatusCode := 500, Header := [], Body := "internal error" }
      else .ok (ok200 "1")
    else .ok (ok200 (if sentBefore.length < 2 then "searching" else "completed"))

/-- The server `brokenEventsServer` with the failing event answer replaced by
    an empty event list. -/
def mendedEventsServer : List Request → Request → Except String Response :=
  fun sentBefore req =>
    if req.URL = "http://srv/research/r1/events" then
      if sentBefore.length < 2 then .ok (ok200 "0") else .ok (ok200 "1")
    else .ok (ok200 (if sentBefore.length < 2 then "searching" else "completed"))

/-- The event lists `growingServer` serves, by round. -/
def growingEvents (i : Nat) : List ResearchEvent :=
  let noon (sec : Fin 60) : Time :=
    { Year := 2025, Month := 1, Day := 1, Hour := 12, Minute := 0, Second := sec,
      Nanosecond := 0, Offset := 0 }
  if i < 2 then [{ Message := "Searching...", CreatedAt := noon 0 }]
  else [{ Message := "Searching...", CreatedAt := noon 0 },
        { Message := "Analyzing...", CreatedAt := noon 1 }]

/-- The job record `lib` decodes from the text `status`. -/
def job (status : String) : ResearchObject :=
  { ID := "r1", CreatedAt := default, Status := status, Query := "",
    Content := none, TransformedContent := none,
    ReasoningLoopsConsumed := 0, RunningTime := 0, Results := [] }

/-- A library like `lib` that reads a chat message from the text
    `id|status|content` for the few texts the servers below send. -/
def chatLib : Lib :=
  { lib with
    decodeChatMessage := fun text =>
      if text = "msg-1|processing|" then
        .ok { ID := "msg-1", Status := "processing", Content := "", Results := [] }
      else if text = "|processing|" then
        .ok { ID := "", Status := "processing", Content := "", Results := [] }
      else if text = "msg-1|completed|The answer is 42." then
        .ok { ID := "msg-1", Status := "completed", Content := "The answer is 42.",
              Results := [{ ID := "", Title := "Source A", URL := "https://example.com/a",
                            CitationIndex := 1 }] }
      else if text = "msg-1||partial" then
        .ok { ID := "msg-1", Status := "", Content := "partial", Results := [] }
      else .error "invalid character"
    decodeCreateResearchResponse := fun text =>
      if text = "res-99|queued" then .ok { ID := "res-99", Status := "queued" }
      else .error "invalid character" }

/-- A library like `lib` for which `http.NewRequest` rejects, as `url.Parse`
    does, a URL with the malformed escape `%zz`. -/
def strictLib : Lib :=
  { lib with
    requestError := fun _ url =>
      if url = "http://srv/research/%zz" then
        some "parse \"http://srv/research/%zz\": invalid URL escape \"%zz\""
      else none }

/-- The server of `TestChatSendCmd_PollUntilComplete`: the message is
    `processing` on creation and for the first two polls, then completed. -/
def chatServer : List Request → Request → Except String Response :=
  fun sentBefore req =>
    if req.Method = "POST" then .ok (ok200 "msg-1|processing|")
    else if sentBefore.length < 3 then .ok (ok200 "msg-1|processing|")
    else .ok (ok200 "msg-1|completed|The answer is 42.")

/-- A server whose poll answers leave out the message id while the message
    is processing. -/
def idlessChatServer : List Request → Request → Except String Response :=
  fun sentBefore req =>
    if req.Method = "POST" then .ok (ok200 "msg-1|processing|")
    else if sentBefore.length < 2 then .ok (ok200 "|processing|")
    else .ok (ok200 "msg-1|completed|The answer is 42.")

/-- A server whose first poll answer has an empty status. -/
def emptyStatusChatServer : List Request → Request → Except String Response :=
  fun _ req =>
    if req.Method = "POST" then .ok (ok200 "msg-1|processing|")
    else .ok (ok200 "msg-1||partial")

/-- The server of `TestResearchCreateCmd_DefaultWaits`. -/
def createServer : List Request → Request → Except String Response :=
  fun sentBefore req =>
    if req.Method = "POST" then .ok (ok200 "res-99|queued")
    else if req.URL = "http://srv/research/res-99/events" then .ok (ok200 "0")
    else if sentBefore.length < 3 then .ok (ok200 "searching")
    else .ok (ok200 "completed")

/-- An encoder that prints a value by a short name. -/
def encode : Encoder := fun v =>
  match v with
  | .createResearchResponse r => .ok ("created " ++ r.ID ++ "\n")
  | .researchObject r => .ok ("job " ++ r.Status ++ "\n")
  | .researchEvents l => .ok ("events " ++ toString l.length ++ "\n")
  | .chatMessage m => .ok ("message " ++ m.ID ++ "\n")
  | .chatMessages l => .ok ("messages " ++ toString l.length ++ "\n")
  | .collection c => .ok ("collection " ++ c.ID ++ "\n")

/-- A process that has done nothing yet. -/
def fresh : Proc :=
  { world := { sent := [] }, stdout := "", stderr := "", cmdOut := "", exitCalls := [] }

/-- The flags of `research create` at their defaults, with `no-wait` as given. -/
def flags (noWait : Bool) : CreateFlags :=
  { loops := 1, reasoning := false, auto := false, excludeSocial := false, model := "",
    systemPrompt := "", excludeDomain := [], brainstorm := "", noWait := noWait }

/-- An environment with no variable set. -/
def noEnv : Environ := fun _ => none

/-- An environment in which `CAESAR_API_KEY` is set to `value`. -/
def envWithKey (value : String) : Environ :=
  fun name => if name = "CAESAR_API_KEY" then some value else none

/-- The request `GetResultContent("r1", "res1", "markdown")` sends for `clientOf`. -/
def contentRequest : Request :=
  { Method := "GET", URL := "http://srv/research/r1/results/res1/content?format=markdown",
    Header := [("Authorization", "Bearer test-key")], Body := none }

/-- The request `GetResultContent("r1?x=1", "res1", "")` sends for `clientOf`. -/
def markedContentRequest : Request :=
  { Method := "GET", URL := "http://srv/research/r1?x=1/results/res1/content",
    Header := [("Authorization", "Bearer test-key")], Body := none }

/-- The request `research create` sends to create the job, for `clientOf`. -/
def createRequest : Request :=
  { Method := "POST", URL := "http://srv/research",
    Header := [("Authorization", "Bearer test-key"), ("Content-Type", "application/json")],
    Body := some "json" }

/-- The message `chatServer` and `idlessChatServer` answer on creation. -/
def processingMessage : ChatMessage :=
  { ID := "msg-1", Status := "processing", Content := "", Results := [] }

/-- The completed message of `chatServer`. -/
def completedMessage : ChatMessage :=
  { ID := "msg-1", Status := "completed", Content := "The answer is 42.",
    Results := [{ ID := "", Title := "Source A", URL := "https://example.com/a",
                  CitationIndex := 1 }] }

/-- The request that creates the chat message, for `clientOf`. -/
def chatCreateRequest : Request :=
  { Method := "POST", URL := "http://srv/research/r1/chat",
    Header := [("Authorization", "Bearer test-key"), ("Content-Type", "application/json")],
    Body := some "json" }

/-- The request that polls the message `msg-1`, for `clientOf`. -/
def chatPollRequest : Request :=
  { Method := "GET", URL := "http://srv/research/r1/chat/msg-1",
    Header := [("Authorization", "Bearer test-key")], Body := none }

/-- The time of day of the demo events. -/
def noonAt (sec : Fin 60) : Time :=
  { Year := 2025, Month := 1, Day := 1, Hour := 12, Minute := 0, Second := sec,
    Nanosecond := 0, Offset := 0 }

/-- A library like `lib` that also reads the event lists `1n` (one event,
    not the one of `1`), `2b` (the first event of `2` rewritten) and `3`. -/
def eventsLib : Lib :=
  { lib with
    decodeResearchEvents := fun text =>
      if text = "0" then .ok []
      else if text = "1" then .ok [{ Message := "Searching...", CreatedAt := noonAt 0 }]
      else if text = "1n" then .ok [{ Message := "New", CreatedAt := noonAt 5 }]
      else if text = "2" then
        .ok [{ Message := "Searching...", CreatedAt := noonAt 0 },
             { Message := "Analyzing...", CreatedAt := noonAt 1 }]
      else if text = "2b" then
        .ok [{ Message := "Rewritten", CreatedAt := noonAt 9 },
             { Message := "Analyzing...", CreatedAt := noonAt 1 }]
      else if text = "3" then
        .ok [{ Message := "New", CreatedAt := noonAt 5 },
             { Message := "Other", CreatedAt := noonAt 6 },
             { Message := "Third", CreatedAt := noonAt 7 }]
      else .error "invalid character" }

/-- A server that rewrites the first event between the two rounds, the job
    completing in the second. -/
def rewritingServer : List Request → Request → Except String Response :=
  fun sentBefore req =>
    if req.URL = "http://srv/research/r1/events" then
      .ok (ok200 (if sentBefore.length < 2 then "1" else "2b"))
    else .ok (ok200 (if sentBefore.length < 2 then "searching" else "completed"))

/-- A server whose event list shrinks from two events to one new event and
    then grows to three; the job completes in the third round. -/
def shrinkingServer : List Request → Request → Except String Response :=
  fun sentBefore req =>
    if req.URL = "http://srv/research/r1/events" then
      .ok (ok200 (if sentBefore.length < 2 then "2"
        else if sentBefore.length < 4 then "1n" else "3"))
    else .ok (ok200 (if sentBefore.length < 4 then "searching" else "completed"))

/-- The session of `TestBrainstormCmd`. -/
def session : BrainstormSession :=
  { ID := "bs-1", Query := "test query",
    Questions := [{ ID := "q1", Question := "What scope?",
                    Options := [("1", "Narrow"), ("2", "Broad")] }],
    Status := "ready", CreatedAt := default }

/-- A library like `lib` that reads `session` from any response. -/
def brainstormLib : Lib :=
  { lib with decodeBrainstormSession := fun _ => .ok session }

/-- The operand `1` of Go type `int`, as the directives `v` and `d` print it;
    any other directive is taken for a verb an `int` does not have. -/
def intOne : Arg :=
  { print := fun d => if d = "v" ∨ d = "d" then "1" else "%!" ++ d ++ "(int=1)",
    extra := "int=1" }

/-- A string operand, as the directives `v` and `s` print it. -/
def strArg (s : String) : Arg :=
  { print := fun d => if d = "v" ∨ d = "s" then s else "%!" ++ d ++ "(string=" ++ s ++ ")",
    extra := "string=" ++ s }

/-- A formatter that gives what the package documents on the formats
    `simpleSprintf` describes, and the empty text on the others. -/
def documentedFmt : Formatter :=
  fun format args => (simpleSprintf format args).getD ""

/-- The event list `2b` of `eventsLib`. -/
def rewrittenEvents : List ResearchEvent :=
  [{ Message := "Rewritten", CreatedAt := noonAt 9 },
   { Message := "Analyzing...", CreatedAt := noonAt 1 }]

/-- The loop state after the first round against `rewritingServer`. -/
def afterFirstRound : PollState :=
  (pollResearch eventsLib (clientOf rewritingServer) "r1" { sent := [] } 1).1

end Demo


/-! ## The transport wrapper -/

theorem Header.set_nil (key value : String) :
    Header.Set [] key value = [(key, value)] := by
  simp [Header.Set]

/-- The header and body of every request `Client.do` manages to build. -/
theorem buildRequest_shape (lib : Lib) (c : Client) (method path : String)
    (body : Option Body) (req : Request)
    (h : c.buildRequest lib method path body = .ok req) :
    req.Header =
        (if body.isSome then
          [("Authorization", "Bearer " ++ c.apiKey), ("Content-Type", "application/json")]
        else [("Authorization", "Bearer " ++ c.apiKey)]) ∧
      req.URL = c.baseURL ++ path ∧
      (body = none → req.Body = none) := by
  unfold Client.buildRequest at h
  cases hm : marshalBody lib body with
  | error e => simp [hm] at h
  | ok reqBody =>
    simp only [hm] at h
    unfold NewRequest at h
    cases hr : lib.requestError method (c.baseURL ++ path) with
    | some e => simp [hr] at h
    | none =>
      simp only [hr] at h
      cases body with
      | none =>
        simp [marshalBody] at hm
        simp [Header.Set] at h
        subst h; subst hm
        simp
      | some b =>
        simp [Header.Set] at h
        subst h
        simp

/-- The log after `Client.do`, given the request it built. -/
theorem do_sent (lib : Lib) (c : Client) (method path : String)
    (body : Option Body) (w : World) (req : Request)
    (h : c.buildRequest lib method path body = .ok req) :
    (c.do_ lib method path body w).2.sent = w.sent ++ [req] := by
  unfold Client.do_
  simp only [h]
  cases c.httpClient.Do w.sent req with
  | error e => rfl
  | ok resp =>
    by_cases hs : resp.StatusCode ≥ 400 <;> simp [hs]

/-- The result of `Client.do` once the HTTP client has delivered `resp`. -/
theorem do_result (lib : Lib) (c : Client) (method path : String)
    (body : Option Body) (w : World) (req : Request) (resp : Response)
    (h : c.buildRequest lib method path body = .ok req)
    (hd : c.httpClient.Do w.sent req = .ok resp) :
    (c.do_ lib method path body w).1 =
      if resp.StatusCode ≥ 400 then
        .error ("API error " ++ toString resp.StatusCode ++ ": " ++ resp.Body)
      else .ok resp := by
  unfold Client.do_
  simp only [h, hd]
  by_cases hs : resp.StatusCode ≥ 400 <;> simp [hs]


/-- C7 (as stated, fails): a response with status 300, outside 200-299, is
    returned by `Client.do` as a success; no error is produced, so none
    carries the body. -/
theorem do_status_300_is_not_an_error :
    ¬ (200 ≤ (Demo.multipleChoices).StatusCode ∧ (Demo.multipleChoices).StatusCode ≤ 299) ∧
      ((Demo.clientOf (fun _ _ => .ok Demo.multipleChoices)).do_ Demo.lib
          "GET" "/test" none { sent := [] }).1 = .ok Demo.multipleChoices ∧
      ¬ ∃ err, ((Demo.clientOf (fun _ _ => .ok Demo.multipleChoices)).do_ Demo.lib
          "GET" "/test" none { sent := [] }).1 = .error err := by
  refine ⟨by decide, by rfl, ?_⟩
  rintro ⟨err, h⟩
  have h2 : ((Demo.clientOf (fun _ _ => .ok Demo.multipleChoices)).do_ Demo.lib
          "GET" "/test" none { sent := [] }).1 = .ok Demo.multipleChoices := by rfl
  rw [h2] at h
  cases h

/-- C7 (amended): when the HTTP client delivers a response whose status code
    is at least 400, `Client.do` returns an error whose text contains the
    exact response body; a response with a status code below 400, inside
    200-299 or not, is returned without an error. -/
theorem do_error_contains_body (lib : Lib) (c : Client) (method path : String)
    (body : Option Body) (w : World) (req : Request) (resp : Response)
    (hreq : c.buildRequest lib method path body = .ok req)
    (hdo : c.httpClient.Do w.sent req = .ok resp) :
    (400 ≤ resp.StatusCode →
        ∃ err, (c.do_ lib method path body w).1 = .error err ∧ Contains err resp.Body) ∧
      (resp.StatusCode < 400 → (c.do_ lib method path body w).1 = .ok resp) := by
  have hres := do_result lib c method path body w req resp hreq hdo
  constructor
  · intro hs
    refine ⟨"API error " ++ toString resp.StatusCode ++ ": " ++ resp.Body, ?_,
      "API error " ++ toString resp.StatusCode ++ ": ", "", ?_⟩
    · rw [hres]; simp [hs]
    · simp
  · intro hs
    rw [hres]
    have : ¬ resp.StatusCode ≥ 400 := by omega
    simp [this]

theorem do_error_contains_body_witness :
    (Demo.clientOf (fun _ _ => .ok Demo.badRequest)).buildRequest Demo.lib "GET" "/test" none
        = .ok Demo.getTest ∧
      ((400 ≤ Demo.badRequest.StatusCode →
        ∃ err, ((Demo.clientOf (fun _ _ => .ok Demo.badRequest)).do_ Demo.lib
            "GET" "/test" none { sent := [] }).1 = .error err ∧
          Contains err Demo.badRequest.Body) ∧
      (Demo.badRequest.StatusCode < 400 →
        ((Demo.clientOf (fun _ _ => .ok Demo.badRequest)).do_ Demo.lib
            "GET" "/test" none { sent := [] }).1 = .ok Demo.badRequest)) :=
  ⟨by rfl,
   do_error_contains_body Demo.lib (Demo.clientOf (fun _ _ => .ok Demo.badRequest))
     "GET" "/test" none { sent := [] } Demo.getTest Demo.badRequest (by rfl) (by rfl)⟩

/-- C8: for a response the HTTP client delivers without a transport error,
    `Client.do` returns the error `API error <code>: <body>` and no response
    when the status code is at least 400, and the response itself and no error
    when it is below 400; so it returns a response exactly when the code is
    below 400 and an error exactly when it is not. -/
theorem do_classifies_status (lib : Lib) (c : Client) (method path : String)
    (body : Option Body) (w : World) (req : Request) (resp : Response)
    (hreq : c.buildRequest lib method path body = .ok req)
    (hdo : c.httpClient.Do w.sent req = .ok resp) :
    (400 ≤ resp.StatusCode →
        (c.do_ lib method path body w).1 =
          .error ("API error " ++ toString resp.StatusCode ++ ": " ++ resp.Body)) ∧
      (resp.StatusCode < 400 → (c.do_ lib method path body w).1 = .ok resp) ∧
      ((∃ r, (c.do_ lib method path body w).1 = .ok r) ↔ resp.StatusCode < 400) ∧
      ((∃ err, (c.do_ lib method path body w).1 = .error err) ↔ 400 ≤ resp.StatusCode) := by
  have hres := do_result lib c method path body w req resp hreq hdo
  by_cases hs : resp.StatusCode ≥ 400
  · have hlt : ¬ resp.StatusCode < 400 := by omega
    simp only [hs, if_true] at hres
    refine ⟨fun _ => hres, fun h => absurd h hlt, ?_, ?_⟩
    · rw [hres]; simp [hlt]
    · rw [hres]; simp; exact hs
  · have hlt : resp.StatusCode < 400 := by omega
    simp only [hs, if_false] at hres
    refine ⟨fun h => absurd h hs, fun _ => hres, ?_, ?_⟩
    · rw [hres]; simp [hlt]
    · rw [hres]; simp; omega

theorem do_classifies_status_witness :
    (Demo.clientOf (fun _ _ => .ok Demo.badRequest)).buildRequest Demo.lib "GET" "/test" none
        = .ok Demo.getTest ∧
      ((Demo.clientOf (fun _ _ => .ok Demo.badRequest)).do_ Demo.lib
          "GET" "/test" none { sent := [] }).1 = .error "API error 400: invalid input" :=
  ⟨by rfl,
   (do_classifies_status Demo.lib (Demo.clientOf (fun _ _ => .ok Demo.badRequest))
     "GET" "/test" none { sent := [] } Demo.getTest Demo.badRequest (by rfl) (by rfl)).1
     (by decide)⟩

/-- C9: the request `Client.do` sends carries `Content-Type: application/json`
    exactly when the body argument is not nil; for a nil body it has no
    `Content-Type` entry and no request body.  The request built is the one
    handed to the HTTP client. -/
theorem do_content_type_iff_body (lib : Lib) (c : Client) (method path : String)
    (body : Option Body) (w : World) (req : Request)
    (hreq : c.buildRequest lib method path body = .ok req) :
    (c.do_ lib method path body w).2.sent = w.sent ++ [req] ∧
      (req.Header.Get "Content-Type" = "application/json" ↔ body ≠ none) ∧
      (req.Header.Has "Content-Type" = true ↔ body ≠ none) ∧
      (body = none → req.Header.Get "Content-Type" = "" ∧ req.Body = none) := by
  obtain ⟨hh, -, hb⟩ := buildRequest_shape lib c method path body req hreq
  refine ⟨do_sent lib c method path body w req hreq, ?_, ?_, ?_⟩
  · cases body <;> simp [hh, Header.Get, List.find?]
  · cases body <;> simp [hh, Header.Has]
  · intro hn
    subst hn
    refine ⟨?_, hb rfl⟩
    simp [hh, Header.Get, List.find?]

theorem do_content_type_iff_body_witness :
    (Demo.clientOf (fun _ _ => .ok (Demo.ok200 ""))).buildRequest Demo.lib "POST" "/test"
        (some (.stringMap [("key", "val")])) = .ok Demo.postTest ∧
      Demo.postTest.Header.Get "Content-Type" = "application/json" :=
  ⟨by rfl,
   ((do_content_type_iff_body Demo.lib (Demo.clientOf (fun _ _ => .ok (Demo.ok200 "")))
     "POST" "/test" (some (.stringMap [("key", "val")])) { sent := [] } Demo.postTest
     (by rfl)).2.1).2 (by simp)⟩

/-- C10: every request `Client.do` sends has the `Authorization` header
    `Bearer ` followed by the client's API key, whatever the method, path and
    body and whatever the server answers. -/
theorem do_sets_bearer_authorization (lib : Lib) (c : Client) (method path : String)
    (body : Option Body) (w : World) (req : Request)
    (hreq : c.buildRequest lib method path body = .ok req) :
    (c.do_ lib method path body w).2.sent = w.sent ++ [req] ∧
      req.Header.Get "Authorization" = "Bearer " ++ c.apiKey := by
  obtain ⟨hh, -, -⟩ := buildRequest_shape lib c method path body req hreq
  refine ⟨do_sent lib c method path body w req hreq, ?_⟩
  cases body <;> simp [hh, Header.Get, List.find?]

theorem do_sets_bearer_authorization_witness :
    (Demo.clientOf (fun _ _ => .ok (Demo.ok200 ""))).buildRequest Demo.lib "GET" "/test" none
        = .ok Demo.getTest ∧
      Demo.getTest.Header.Get "Authorization" = "Bearer test-key" :=
  ⟨by rfl,
   (do_sets_bearer_authorization Demo.lib (Demo.clientOf (fun _ _ => .ok (Demo.ok200 "")))
     "GET" "/test" none { sent := [] } Demo.getTest (by rfl)).2⟩


/-! ## The poll loop, round by round -/

theorem emitEvents_eq (out : String) (events : List ResearchEvent) :
    emitEvents out events = out ++ renderEvents events := by
  induction events generalizing out with
  | nil => simp [emitEvents, renderEvents]
  | cons e rest ih =>
    have : emitEvents out (e :: rest) = emitEvents (out ++ formatEvent e) rest := rfl
    rw [this, ih, renderEvents, String.append_assoc]

theorem renderEvents_append (xs ys : List ResearchEvent) :
    renderEvents (xs ++ ys) = renderEvents xs ++ renderEvents ys := by
  induction xs with
  | nil => simp [renderEvents]
  | cons e rest ih => simp [renderEvents, ih, String.append_assoc]

/-- A round whose status fetch fails returns that error and leaves the loop
    variables as they were. -/
theorem pollRound_status_error (lib : Lib) (c : Client) (id : String) (s : PollState)
    (err : String) (h : (c.GetResearch lib id s.world).1 = .error err) :
    pollRound lib c id s =
      ({ s with world := (c.GetResearch lib id s.world).2 }, some (.error err)) := by
  unfold pollRound
  rcases hg : c.GetResearch lib id s.world with ⟨r, w1⟩
  rw [hg] at h
  simp only at h
  subst h
  rfl

/-- A round whose status fetch succeeds merges the event fetch, then lets the
    status decide. -/
theorem pollRound_status_ok (lib : Lib) (c : Client) (id : String) (s : PollState)
    (res : ResearchObject) (h : (c.GetResearch lib id s.world).1 = .ok res) :
    pollRound lib c id s =
      (mergeEvents s (c.GetResearchEvents lib id (c.GetResearch lib id s.world).2).1
          (roundWorld lib c id s.world),
        statusVerdict id res) := by
  unfold pollRound roundWorld
  rcases hg : c.GetResearch lib id s.world with ⟨r, w1⟩
  rw [hg] at h
  simp only at h
  subst h
  rfl

theorem mergeEvents_world (s : PollState) (fetched : Except String (List ResearchEvent))
    (w : World) : (mergeEvents s fetched w).world = w := by
  unfold mergeEvents
  cases fetched with
  | error e => rfl
  | ok events => by_cases h : events.length > s.seenEvents <;> simp [h]

theorem statusVerdict_running (id : String) (res : ResearchObject)
    (h1 : res.Status ≠ "completed") (h2 : res.Status ≠ "failed") :
    statusVerdict id res = none := by
  simp [statusVerdict, h1, h2]

theorem statusVerdict_completed (id : String) (res : ResearchObject)
    (h : res.Status = "completed") : statusVerdict id res = some (.ok res) := by
  simp [statusVerdict, h]

theorem statusVerdict_failed (id : String) (res : ResearchObject)
    (h : res.Status = "failed") :
    statusVerdict id res = some (.error ("research job " ++ id ++ " failed")) := by
  simp [statusVerdict, h]

/-- Running one more round: the loop of `n + 1` passes is the loop of `n`
    passes followed, if that has not returned, by one more pass. -/
theorem pollLoop_succ (lib : Lib) (c : Client) (id : String) (n : Nat) (s : PollState) :
    pollLoop lib c id (n + 1) s =
      match pollLoop lib c id n s with
      | (s1, none) => pollRound lib c id s1
      | (s1, some r) => (s1, some r) := by
  induction n generalizing s with
  | zero =>
    simp only [pollLoop]
    rcases pollRound lib c id s with ⟨s1, _ | r⟩ <;> rfl
  | succ k ih =>
    rw [pollLoop]
    rcases hr : pollRound lib c id s with ⟨s1, _ | r⟩
    · simp only
      rw [ih s1]
      conv => rhs; rw [pollLoop, hr]
    · simp only
      conv => rhs; rw [pollLoop, hr]

/-- Once the loop has returned, more passes change nothing. -/
theorem pollLoop_returned (lib : Lib) (c : Client) (id : String) (n m : Nat)
    (s : PollState) (r : Except String ResearchObject)
    (h : (pollLoop lib c id n s).2 = some r) (hm : n ≤ m) :
    pollLoop lib c id m s = pollLoop lib c id n s := by
  induction m with
  | zero =>
    have : n = 0 := by omega
    subst this; rfl
  | succ k ih =>
    by_cases hk : n ≤ k
    · rw [pollLoop_succ, ih hk]
      rcases hp : pollLoop lib c id n s with ⟨s1, _ | r1⟩
      · rw [hp] at h; simp at h
      · rfl
    · have : n = k + 1 := by omega
      subst this; rfl

/-- While the loop has returned nothing after `m` passes, it had returned
    nothing after fewer. -/
theorem pollLoop_not_returned_before (lib : Lib) (c : Client) (id : String) (n m : Nat)
    (s : PollState) (h : (pollLoop lib c id m s).2 = none) (hm : n ≤ m) :
    (pollLoop lib c id n s).2 = none := by
  cases hn : (pollLoop lib c id n s).2 with
  | none => rfl
  | some r =>
    rw [pollLoop_returned lib c id n m s r hn hm, hn] at h
    cases h

theorem statusFetch_zero (lib : Lib) (c : Client) (id : String) (w : World) :
    statusFetch lib c id w 0 = (c.GetResearch lib id w).1 := rfl

/-- The next pass of a loop that has not returned. -/
theorem pollResearch_succ (lib : Lib) (c : Client) (id : String) (w : World) (k : Nat)
    (hrun : (pollResearch lib c id w k).2 = none) :
    pollResearch lib c id w (k + 1) = pollRound lib c id (pollResearch lib c id w k).1 := by
  unfold pollResearch at hrun ⊢
  rw [pollLoop_succ]
  rcases hp : pollLoop lib c id k { seenEvents := 0, out := "", world := w } with ⟨s1, _ | r⟩
  · rfl
  · rw [hp] at hrun; simp at hrun

/-- The next pass when its status fetch fails. -/
theorem pollResearch_next_error (lib : Lib) (c : Client) (id : String) (w : World)
    (k : Nat) (err : String)
    (hrun : (pollResearch lib c id w k).2 = none)
    (hw : (pollResearch lib c id w k).1.world = afterRounds lib c id k w)
    (hs : statusFetch lib c id w k = .error err) :
    pollResearch lib c id w (k + 1) =
      ({ (pollResearch lib c id w k).1 with
          world := (c.GetResearch lib id (afterRounds lib c id k w)).2 },
        some (.error err)) := by
  rw [pollResearch_succ lib c id w k hrun]
  have h : (c.GetResearch lib id (pollResearch lib c id w k).1.world).1 = .error err := by
    rw [hw]; exact hs
  rw [pollRound_status_error lib c id _ err h, hw]

/-- The next pass when its status fetch succeeds. -/
theorem pollResearch_next_ok (lib : Lib) (c : Client) (id : String) (w : World)
    (k : Nat) (res : ResearchObject)
    (hrun : (pollResearch lib c id w k).2 = none)
    (hw : (pollResearch lib c id w k).1.world = afterRounds lib c id k w)
    (hs : statusFetch lib c id w k = .ok res) :
    pollResearch lib c id w (k + 1) =
      (mergeEvents (pollResearch lib c id w k).1 (eventsFetch lib c id w k)
          (afterRounds lib c id (k + 1) w),
        statusVerdict id res) := by
  rw [pollResearch_succ lib c id w k hrun]
  have h : (c.GetResearch lib id (pollResearch lib c id w k).1.world).1 = .ok res := by
    rw [hw]; exact hs
  rw [pollRound_status_ok lib c id _ res h, hw]
  rfl

/-- Rounds that all fetch a running status: the loop has not returned and has
    made exactly these rounds of requests. -/
theorem pollResearch_running (lib : Lib) (c : Client) (id : String) (w : World) (n : Nat)
    (h : ∀ i, i < n → StillRunning (statusFetch lib c id w i)) :
    (pollResearch lib c id w n).2 = none ∧
      (pollResearch lib c id w n).1.world = afterRounds lib c id n w := by
  induction n with
  | zero => exact ⟨rfl, rfl⟩
  | succ k ih =>
    obtain ⟨hrun, hw⟩ := ih (fun i hi => h i (by omega))
    obtain ⟨res, hs, h1, h2⟩ := h k (by omega)
    rw [pollResearch_next_ok lib c id w k res hrun hw hs]
    exact ⟨statusVerdict_running id res h1 h2, mergeEvents_world _ _ _⟩

/-- After running rounds, a round with a terminal or failing status fetch is
    the last: later observations equal the one after that round. -/
theorem pollResearch_settled (lib : Lib) (c : Client) (id : String) (w : World)
    (n m : Nat) (r : Except String ResearchObject)
    (h : (pollResearch lib c id w n).2 = some r) (hm : n ≤ m) :
    pollResearch lib c id w m = pollResearch lib c id w n :=
  pollLoop_returned lib c id n m _ r h hm


theorem pollResearch_world_of_running (lib : Lib) (c : Client) (id : String) (w : World)
    (n : Nat) (h : (pollResearch lib c id w n).2 = none) :
    (pollResearch lib c id w n).1.world = afterRounds lib c id n w := by
  induction n with
  | zero => rfl
  | succ k ih =>
    have hk : (pollResearch lib c id w k).2 = none :=
      pollLoop_not_returned_before lib c id k (k + 1) _ h (by omega)
    have hw := ih hk
    cases hs : statusFetch lib c id w k with
    | error err =>
      rw [pollResearch_next_error lib c id w k err hk hw hs] at h
      simp at h
    | ok res =>
      rw [pollResearch_next_ok lib c id w k res hk hw hs]
      exact mergeEvents_world _ _ _

theorem mergeEvents_prefix (s : PollState) (seen events : List ResearchEvent) (w : World)
    (hseen : s.seenEvents = seen.length) (hout : s.out = renderEvents seen)
    (hp : seen <+: events) :
    mergeEvents s (.ok events) w =
      { seenEvents := events.length, out := renderEvents events, world := w } := by
  obtain ⟨fresh, rfl⟩ := hp
  unfold mergeEvents
  by_cases h : (seen ++ fresh).length > s.seenEvents
  · simp only [h, if_true]
    rw [hseen, List.drop_left, emitEvents_eq, hout, renderEvents_append]
  · simp only [h, if_false]
    have hf : fresh = [] := by
      rw [hseen, List.length_append] at h
      exact List.length_eq_zero.mp (by omega)
    subst hf
    cases s
    simp at hseen hout ⊢
    exact ⟨hseen, hout⟩

theorem mergeEvents_swallowed (s s' : PollState) (fetched : Except String (List ResearchEvent))
    (w w' : World) (hseen : s'.seenEvents = s.seenEvents) (hout : s'.out = s.out) :
    (mergeEvents s' (swallowed fetched) w').seenEvents = (mergeEvents s fetched w).seenEvents ∧
      (mergeEvents s' (swallowed fetched) w').out = (mergeEvents s fetched w).out := by
  cases fetched with
  | error e =>
    simp [swallowed, mergeEvents, hseen, hout]
  | ok events =>
    simp only [swallowed, mergeEvents, hseen, hout]
    by_cases h : events.length > s.seenEvents <;> simp [h, hseen, hout]

theorem buildRequest_method (lib : Lib) (c : Client) (method path : String)
    (body : Option Body) (req : Request)
    (h : c.buildRequest lib method path body = .ok req) :
    req.Method = if method = "" then "GET" else method := by
  unfold Client.buildRequest at h
  cases hm : marshalBody lib body with
  | error e => simp [hm] at h
  | ok reqBody =>
    simp only [hm] at h
    unfold NewRequest at h
    cases hr : lib.requestError method (c.baseURL ++ path) with
    | some e => simp [hr] at h
    | none =>
      simp only [hr] at h
      cases body with
      | none =>
        simp at h
        subst h
        rfl
      | some b =>
        simp at h
        subst h
        rfl

theorem GetResearch_world (lib : Lib) (c : Client) (id : String) (w : World) :
    (c.GetResearch lib id w).2 = (c.do_ lib "GET" ("/research/" ++ id) none w).2 := by
  unfold Client.GetResearch
  rcases c.do_ lib "GET" ("/research/" ++ id) none w with ⟨_ | _, w1⟩ <;> rfl

/-- The status fetch hands at most one request to the HTTP client, a `GET` of
    `/research/<id>`. -/
theorem GetResearch_sent (lib : Lib) (c : Client) (id : String) (w : World) :
    ∃ extra, (c.GetResearch lib id w).2.sent = w.sent ++ extra ∧ extra.length ≤ 1 ∧
      ∀ r, r ∈ extra → r.Method = "GET" ∧ r.URL = c.baseURL ++ "/research/" ++ id := by
  rw [GetResearch_world]
  cases hb : c.buildRequest lib "GET" ("/research/" ++ id) none with
  | error e =>
    refine ⟨[], ?_, by simp, by simp⟩
    unfold Client.do_
    simp [hb]
  | ok req =>
    refine ⟨[req], do_sent lib c _ _ _ w req hb, by simp, ?_⟩
    intro r hr
    simp at hr
    subst hr
    obtain ⟨-, hu, -⟩ := buildRequest_shape lib c _ _ _ r hb
    have hm := buildRequest_method lib c _ _ _ r hb
    refine ⟨by simpa using hm, ?_⟩
    rw [hu, String.append_assoc]

theorem url_ne_events (u : String) : u ≠ u ++ "/events" := by
  intro h
  have hl := congrArg String.length h
  simp at hl
  exact absurd hl (by decide)


/-! ## The poll loop: claims -/

/-- C2: when the status fetches of rounds `0 .. j` succeed, rounds before `j`
    report a status that is neither `completed` nor `failed` and round `j`
    reports `completed`, `pollResearch` has not returned within `j` rounds and
    returns in round `j + 1` with a nil error and exactly the record fetched
    in that round, having made exactly `j + 1` rounds of fetches (`j = 0`: the
    first status is already `completed`). -/
theorem pollResearch_returns_completed_record (lib : Lib) (c : Client) (id : String)
    (w : World) (j : Nat) (res : ResearchObject)
    (hprev : ∀ i, i < j → StillRunning (statusFetch lib c id w i))
    (hj : statusFetch lib c id w j = .ok res) (hc : res.Status = "completed") :
    (∀ n, n ≤ j → (pollResearch lib c id w n).2 = none) ∧
      (∀ n, j + 1 ≤ n →
        (pollResearch lib c id w n).2 = some (.ok res) ∧
        (pollResearch lib c id w n).1.world = afterRounds lib c id (j + 1) w) := by
  obtain ⟨hrun, hw⟩ := pollResearch_running lib c id w j hprev
  have hnext := pollResearch_next_ok lib c id w j res hrun hw hj
  have hret : (pollResearch lib c id w (j + 1)).2 = some (.ok res) := by
    rw [hnext]; exact statusVerdict_completed id res hc
  refine ⟨fun n hn => pollLoop_not_returned_before lib c id n j _ hrun hn, fun n hn => ?_⟩
  rw [pollResearch_settled lib c id w (j + 1) n _ hret hn]
  refine ⟨hret, ?_⟩
  rw [hnext]
  exact mergeEvents_world _ _ _

theorem pollResearch_returns_completed_record_witness :
    (∀ i, i < 2 →
        StillRunning (statusFetch Demo.lib (Demo.clientOf Demo.growingServer) "r1" { sent := [] } i)) ∧
      statusFetch Demo.lib (Demo.clientOf Demo.growingServer) "r1" { sent := [] } 2
        = .ok (Demo.job "completed") ∧
      (pollResearch Demo.lib (Demo.clientOf Demo.growingServer) "r1" { sent := [] } 2).2 = none ∧
      (pollResearch Demo.lib (Demo.clientOf Demo.growingServer) "r1" { sent := [] } 3).2
        = some (.ok (Demo.job "completed")) :=
  have hprev : ∀ i, i < 2 →
      StillRunning (statusFetch Demo.lib (Demo.clientOf Demo.growingServer) "r1" { sent := [] } i) := by
    intro i hi
    interval_cases i
    · exact ⟨Demo.job "searching", rfl, by decide, by decide⟩
    · exact ⟨Demo.job "searching", rfl, by decide, by decide⟩
  have h := pollResearch_returns_completed_record Demo.lib (Demo.clientOf Demo.growingServer)
    "r1" { sent := [] } 2 (Demo.job "completed") hprev rfl rfl
  ⟨hprev, rfl, h.1 2 (by decide), (h.2 3 (by decide)).1⟩

/-- C3: when the status fetches of rounds `0 .. j` succeed, rounds before `j`
    report a status that is neither `completed` nor `failed` and round `j`
    reports `failed`, `pollResearch` returns in round `j + 1` with no record
    and the error `research job <id> failed` for the id it was called with;
    that text contains the id and contains `failed`. -/
theorem pollResearch_failed_job_error (lib : Lib) (c : Client) (id : String)
    (w : World) (j : Nat) (res : ResearchObject)
    (hprev : ∀ i, i < j → StillRunning (statusFetch lib c id w i))
    (hj : statusFetch lib c id w j = .ok res) (hf : res.Status = "failed") :
    (∀ n, n ≤ j → (pollResearch lib c id w n).2 = none) ∧
      (∀ n, j + 1 ≤ n →
        (pollResearch lib c id w n).2 = some (.error ("research job " ++ id ++ " failed"))) ∧
      Contains ("research job " ++ id ++ " failed") id ∧
      Contains ("research job " ++ id ++ " failed") "failed" := by
  obtain ⟨hrun, hw⟩ := pollResearch_running lib c id w j hprev
  have hnext := pollResearch_next_ok lib c id w j res hrun hw hj
  have hret : (pollResearch lib c id w (j + 1)).2 =
      some (.error ("research job " ++ id ++ " failed")) := by
    rw [hnext]; exact statusVerdict_failed id res hf
  refine ⟨fun n hn => pollLoop_not_returned_before lib c id n j _ hrun hn, fun n hn => ?_,
    ⟨"research job ", " failed", rfl⟩, ⟨"research job " ++ id ++ " ", "", ?_⟩⟩
  · rw [pollResearch_settled lib c id w (j + 1) n _ hret hn]
    exact hret
  · simp [String.append_assoc]

theorem pollResearch_failed_job_error_witness :
    statusFetch Demo.lib (Demo.clientOf Demo.failedServer) "r1" { sent := [] } 0
        = .ok (Demo.job "failed") ∧
      (pollResearch Demo.lib (Demo.clientOf Demo.failedServer) "r1" { sent := [] } 1).2
        = some (.error "research job r1 failed") :=
  ⟨rfl,
   (pollResearch_failed_job_error Demo.lib (Demo.clientOf Demo.failedServer) "r1" { sent := [] }
      0 (Demo.job "failed") (fun i hi => absurd hi (Nat.not_lt_zero i)) rfl rfl).2.1 1
      (by decide)⟩

/-- C4: when the first `n` status fetches succeed with statuses other than
    exactly `completed` and exactly `failed`, `pollResearch` has made `n` full
    rounds and has not returned within them.  A single round with such a
    status does not return, whatever the loop state; and if every round has
    such a status, no number of rounds makes `pollResearch` return. -/
theorem pollResearch_keeps_polling (lib : Lib) (c : Client) (id : String) (w : World)
    (n : Nat) (h : ∀ i, i < n → StillRunning (statusFetch lib c id w i)) :
    (∀ m, m ≤ n → (pollResearch lib c id w m).2 = none) ∧
      (pollResearch lib c id w n).1.world = afterRounds lib c id n w ∧
      (∀ (s : PollState) (res : ResearchObject),
        (c.GetResearch lib id s.world).1 = .ok res →
        res.Status ≠ "completed" → res.Status ≠ "failed" →
        (pollRound lib c id s).2 = none) ∧
      ((∀ i, StillRunning (statusFetch lib c id w i)) →
        ∀ m, (pollResearch lib c id w m).2 = none) := by
  obtain ⟨hrun, hw⟩ := pollResearch_running lib c id w n h
  refine ⟨fun m hm => pollLoop_not_returned_before lib c id m n _ hrun hm, hw, ?_, ?_⟩
  · intro s res hs h1 h2
    rw [pollRound_status_ok lib c id s res hs]
    exact statusVerdict_running id res h1 h2
  · intro hall m
    exact (pollResearch_running lib c id w m (fun i _ => hall i)).1

theorem pollResearch_keeps_polling_witness :
    statusFetch Demo.lib (Demo.clientOf Demo.oddStatusServer) "r1" { sent := [] } 0
        = .ok (Demo.job "") ∧
      statusFetch Demo.lib (Demo.clientOf Demo.oddStatusServer) "r1" { sent := [] } 1
        = .ok (Demo.job "queued") ∧
      statusFetch Demo.lib (Demo.clientOf Demo.oddStatusServer) "r1" { sent := [] } 2
        = .ok (Demo.job "Completed") ∧
      (pollResearch Demo.lib (Demo.clientOf Demo.oddStatusServer) "r1" { sent := [] } 3).2 = none :=
  ⟨rfl, rfl, rfl,
   (pollResearch_keeps_polling Demo.lib (Demo.clientOf Demo.oddStatusServer) "r1" { sent := [] } 3
      (by
        intro i hi
        interval_cases i
        · exact ⟨Demo.job "", rfl, by decide, by decide⟩
        · exact ⟨Demo.job "queued", rfl, by decide, by decide⟩
        · exact ⟨Demo.job "Completed", rfl, by decide, by decide⟩)).1 3 (by decide)⟩

/-- The infinite form of C4: if every round fetches a status other than
    `completed` and `failed`, no number of rounds makes `pollResearch` return. -/
theorem pollResearch_never_returns (lib : Lib) (c : Client) (id : String) (w : World)
    (h : ∀ i, StillRunning (statusFetch lib c id w i)) (n : Nat) :
    (pollResearch lib c id w n).2 = none :=
  (pollResearch_running lib c id w n (fun i _ => h i)).1


/-- C1: rounds `0 .. j` whose status and event fetches all succeed, where each
    round's event list extends the previous round's as a prefix and only round
    `j` reports `completed` or `failed`: after each round the text written is
    that round's event list, one line `[HH:MM:SS] message` per event in list
    order, and `pollResearch` returns in round `j + 1` having written exactly
    the last round's list, each event once and none left out. -/
theorem pollResearch_prints_last_event_list (lib : Lib) (c : Client) (id : String)
    (w : World) (j : Nat) (events : Nat → List ResearchEvent)
    (hprev : ∀ i, i < j → StillRunning (statusFetch lib c id w i))
    (hlast : ∃ res, statusFetch lib c id w j = .ok res ∧
      (res.Status = "completed" ∨ res.Status = "failed"))
    (hevents : ∀ i, i ≤ j → eventsFetch lib c id w i = .ok (events i))
    (hgrow : ∀ i, i < j → events i <+: events (i + 1)) :
    (∀ i, i ≤ j →
        (pollResearch lib c id w (i + 1)).1.out = renderEvents (events i) ∧
        (pollResearch lib c id w (i + 1)).1.seenEvents = (events i).length) ∧
      (∀ n, j + 1 ≤ n →
        (pollResearch lib c id w n).2 ≠ none ∧
        (pollResearch lib c id w n).1.out = renderEvents (events j)) := by
  have hstatus : ∀ i, i ≤ j → ∃ res, statusFetch lib c id w i = .ok res := by
    intro i hi
    by_cases hij : i < j
    · obtain ⟨res, hs, -, -⟩ := hprev i hij
      exact ⟨res, hs⟩
    · have : i = j := by omega
      subst this
      obtain ⟨res, hs, -⟩ := hlast
      exact ⟨res, hs⟩
  have hround : ∀ i, i ≤ j →
      (pollResearch lib c id w (i + 1)).1 =
        { seenEvents := (events i).length, out := renderEvents (events i),
          world := afterRounds lib c id (i + 1) w } := by
    intro i
    induction i with
    | zero =>
      intro hi
      obtain ⟨res, hs⟩ := hstatus 0 hi
      rw [pollResearch_next_ok lib c id w 0 res rfl rfl hs, hevents 0 hi]
      exact mergeEvents_prefix _ [] (events 0) _ rfl rfl List.nil_prefix
    | succ k ih =>
      intro hi
      have hk := ih (by omega)
      obtain ⟨res, hs⟩ := hstatus (k + 1) hi
      obtain ⟨hrun, hw⟩ := pollResearch_running lib c id w (k + 1)
        (fun i hik => hprev i (by omega))
      rw [pollResearch_next_ok lib c id w (k + 1) res hrun hw hs, hevents (k + 1) hi]
      refine mergeEvents_prefix _ (events k) (events (k + 1)) _ ?_ ?_ (hgrow k (by omega))
      · rw [hk]
      · rw [hk]
  refine ⟨fun i hi => by rw [hround i hi]; exact ⟨rfl, rfl⟩, fun n hn => ?_⟩
  obtain ⟨res, hs, hterm⟩ := hlast
  obtain ⟨hrun, hw⟩ := pollResearch_running lib c id w j hprev
  have hnext := pollResearch_next_ok lib c id w j res hrun hw hs
  have hret : ∃ r, (pollResearch lib c id w (j + 1)).2 = some r := by
    rw [hnext]
    rcases hterm with hc | hf
    · exact ⟨_, statusVerdict_completed id res hc⟩
    · exact ⟨_, statusVerdict_failed id res hf⟩
  obtain ⟨r, hr⟩ := hret
  rw [pollResearch_settled lib c id w (j + 1) n r hr hn, hr, hround j (Nat.le_refl j)]
  exact ⟨by simp, rfl⟩

theorem pollResearch_prints_last_event_list_witness :
    (∀ i, i < 2 → Demo.growingEvents i <+: Demo.growingEvents (i + 1)) ∧
      (∀ i, i ≤ 2 →
        eventsFetch Demo.lib (Demo.clientOf Demo.growingServer) "r1" { sent := [] } i
          = .ok (Demo.growingEvents i)) ∧
      (pollResearch Demo.lib (Demo.clientOf Demo.growingServer) "r1" { sent := [] } 3).1.out
        = "[12:00:00] Searching...\n[12:00:01] Analyzing...\n" :=
  have hprev : ∀ i, i < 2 →
      StillRunning (statusFetch Demo.lib (Demo.clientOf Demo.growingServer) "r1" { sent := [] } i) := by
    intro i hi
    interval_cases i
    · exact ⟨Demo.job "searching", rfl, by decide, by decide⟩
    · exact ⟨Demo.job "searching", rfl, by decide, by decide⟩
  have hevents : ∀ i, i ≤ 2 →
      eventsFetch Demo.lib (Demo.clientOf Demo.growingServer) "r1" { sent := [] } i
        = .ok (Demo.growingEvents i) := by
    intro i hi
    interval_cases i <;> rfl
  have hgrow : ∀ i, i < 2 → Demo.growingEvents i <+: Demo.growingEvents (i + 1) := by
    intro i hi
    interval_cases i <;> decide
  ⟨hgrow, hevents,
   ((pollResearch_prints_last_event_list Demo.lib (Demo.clientOf Demo.growingServer) "r1"
      { sent := [] } 2 Demo.growingEvents hprev
      ⟨Demo.job "completed", rfl, Or.inl rfl⟩ hevents hgrow).2 3 (by decide)).2⟩

/-- C5: when rounds `0 .. n-1` report a running status and the status fetch of
    round `n` fails with `err`, `pollResearch` returns in that round with no
    record and exactly `err`; the round writes nothing, leaves the event
    count alone, hands the HTTP client at most the one status request (never a
    request for the event list), and nothing is requested afterwards. -/
theorem pollResearch_status_error_aborts (lib : Lib) (c : Client) (id : String)
    (w : World) (n : Nat) (err : String)
    (hprev : ∀ i, i < n → StillRunning (statusFetch lib c id w i))
    (herr : statusFetch lib c id w n = .error err) :
    (pollResearch lib c id w (n + 1)).2 = some (.error err) ∧
      (pollResearch lib c id w (n + 1)).1.out = (pollResearch lib c id w n).1.out ∧
      (pollResearch lib c id w (n + 1)).1.seenEvents
        = (pollResearch lib c id w n).1.seenEvents ∧
      (pollResearch lib c id w (n + 1)).1.world
        = (c.GetResearch lib id (pollResearch lib c id w n).1.world).2 ∧
      (∃ extra, (pollResearch lib c id w (n + 1)).1.world.sent
          = (pollResearch lib c id w n).1.world.sent ++ extra ∧
        extra.length ≤ 1 ∧
        ∀ r, r ∈ extra → r.URL = c.baseURL ++ "/research/" ++ id ∧
          r.URL ≠ c.baseURL ++ "/research/" ++ id ++ "/events") ∧
      (∀ m, n + 1 ≤ m → pollResearch lib c id w m = pollResearch lib c id w (n + 1)) := by
  obtain ⟨hrun, hw⟩ := pollResearch_running lib c id w n hprev
  have hnext := pollResearch_next_error lib c id w n err hrun hw herr
  have hret : (pollResearch lib c id w (n + 1)).2 = some (.error err) := by rw [hnext]
  refine ⟨hret, by rw [hnext], by rw [hnext], by rw [hnext, hw], ?_,
    fun m hm => pollResearch_settled lib c id w (n + 1) m _ hret hm⟩
  obtain ⟨extra, hsent, hlen, hreq⟩ := GetResearch_sent lib c id (afterRounds lib c id n w)
  refine ⟨extra, ?_, hlen, fun r hr => ?_⟩
  · rw [hnext, hw]; exact hsent
  · obtain ⟨-, hu⟩ := hreq r hr
    exact ⟨hu, by rw [hu]; exact url_ne_events _⟩

theorem pollResearch_status_error_aborts_witness :
    statusFetch Demo.lib (Demo.clientOf Demo.vanishingServer) "r1" { sent := [] } 1
        = .error "request failed: connection refused" ∧
      pollResearch Demo.lib (Demo.clientOf Demo.vanishingServer) "r1" { sent := [] } 2
        = ({ seenEvents := 1, out := "[12:00:00] Searching...\n",
             world := { sent := [
               { Method := "GET", URL := "http://srv/research/r1",
                 Header := [("Authorization", "Bearer test-key")], Body := none },
               { Method := "GET", URL := "http://srv/research/r1/events",
                 Header := [("Authorization", "Bearer test-key")], Body := none },
               { Method := "GET", URL := "http://srv/research/r1",
                 Header := [("Authorization", "Bearer test-key")], Body := none }] } },
           some (.error "request failed: connection refused")) ∧
      (pollResearch Demo.lib (Demo.clientOf Demo.vanishingServer) "r1" { sent := [] } 2).2
        = some (.error "request failed: connection refused") :=
  ⟨rfl, rfl,
   (pollResearch_status_error_aborts Demo.lib (Demo.clientOf Demo.vanishingServer) "r1"
      { sent := [] } 1 "request failed: connection refused"
      (by
        intro i hi
        interval_cases i
        exact ⟨Demo.job "searching", rfl, by decide, by decide⟩)
      rfl).1⟩

/-- Two servers with equal status fetches whose event fetches differ only in
    that failures of the first are empty successes of the second drive the
    loop through states with the same text, count and return value. -/
theorem pollResearch_swallow_simulation (lib : Lib) (c c' : Client) (id : String)
    (w w' : World) (n : Nat)
    (hstatus : ∀ i, i < n → statusFetch lib c' id w' i = statusFetch lib c id w i)
    (hevents : ∀ i, i < n →
      eventsFetch lib c' id w' i = swallowed (eventsFetch lib c id w i)) :
    (pollResearch lib c' id w' n).1.out = (pollResearch lib c id w n).1.out ∧
      (pollResearch lib c' id w' n).2 = (pollResearch lib c id w n).2 ∧
      (pollResearch lib c' id w' n).1.seenEvents = (pollResearch lib c id w n).1.seenEvents := by
  induction n with
  | zero => exact ⟨rfl, rfl, rfl⟩
  | succ k ih =>
    obtain ⟨hout, hres, hseen⟩ :=
      ih (fun i hi => hstatus i (by omega)) (fun i hi => hevents i (by omega))
    cases hr : (pollResearch lib c id w k).2 with
    | some r =>
      have hr' : (pollResearch lib c' id w' k).2 = some r := by rw [hres, hr]
      rw [pollResearch_settled lib c id w k (k + 1) r hr (by omega),
        pollResearch_settled lib c' id w' k (k + 1) r hr' (by omega)]
      exact ⟨hout, hres, hseen⟩
    | none =>
      have hr' : (pollResearch lib c' id w' k).2 = none := by rw [hres, hr]
      have hw := pollResearch_world_of_running lib c id w k hr
      have hw' := pollResearch_world_of_running lib c' id w' k hr'
      have hst := hstatus k (by omega)
      cases hs : statusFetch lib c id w k with
      | error err =>
        rw [hs] at hst
        rw [pollResearch_next_error lib c id w k err hr hw hs,
          pollResearch_next_error lib c' id w' k err hr' hw' hst]
        exact ⟨hout, rfl, hseen⟩
      | ok res =>
        rw [hs] at hst
        rw [pollResearch_next_ok lib c id w k res hr hw hs,
          pollResearch_next_ok lib c' id w' k res hr' hw' hst, hevents k (by omega)]
        obtain ⟨h1, h2⟩ := mergeEvents_swallowed (pollResearch lib c id w k).1
          (pollResearch lib c' id w' k).1 (eventsFetch lib c id w k)
          (afterRounds lib c id (k + 1) w) (afterRounds lib c' id (k + 1) w') hseen hout
        exact ⟨h2, rfl, h1⟩


/-- C6: if a second server gives the same status fetches as the first and
    the same event fetches except that each failed one is a successful fetch
    of the empty list, then `pollResearch` writes the same text, holds the same
    event count and returns the same value or error (or has equally not
    returned) against both.  In a round whose event fetch fails, nothing is
    written, the count stays, and the round returns as its status alone
    decides: an event-fetch error never aborts polling. -/
theorem pollResearch_event_errors_swallowed (lib : Lib) (c c' : Client) (id : String)
    (w w' : World) (n : Nat)
    (hstatus : ∀ i, i < n → statusFetch lib c' id w' i = statusFetch lib c id w i)
    (hevents : ∀ i, i < n →
      eventsFetch lib c' id w' i = swallowed (eventsFetch lib c id w i)) :
    (pollResearch lib c' id w' n).1.out = (pollResearch lib c id w n).1.out ∧
      (pollResearch lib c' id w' n).2 = (pollResearch lib c id w n).2 ∧
      (pollResearch lib c' id w' n).1.seenEvents = (pollResearch lib c id w n).1.seenEvents ∧
      (∀ (s : PollState) (res : ResearchObject) (err : String),
        (c.GetResearch lib id s.world).1 = .ok res →
        (c.GetResearchEvents lib id (c.GetResearch lib id s.world).2).1 = .error err →
        (pollRound lib c id s).2 = statusVerdict id res ∧
        (pollRound lib c id s).1.out = s.out ∧
        (pollRound lib c id s).1.seenEvents = s.seenEvents) := by
  obtain ⟨hout, hres, hseen⟩ := pollResearch_swallow_simulation lib c c' id w w' n hstatus hevents
  refine ⟨hout, hres, hseen, ?_⟩
  intro s res err hs he
  rw [pollRound_status_ok lib c id s res hs, he]
  exact ⟨rfl, rfl, rfl⟩

theorem pollResearch_event_errors_swallowed_witness :
    eventsFetch Demo.lib (Demo.clientOf Demo.brokenEventsServer) "r1" { sent := [] } 0
        = .error "API error 500: internal error" ∧
      eventsFetch Demo.lib (Demo.clientOf Demo.mendedEventsServer) "r1" { sent := [] } 0
        = .ok [] ∧
      (pollResearch Demo.lib (Demo.clientOf Demo.brokenEventsServer) "r1" { sent := [] } 2).1.out
        = "[12:00:00] Searching...\n" ∧
      (pollResearch Demo.lib (Demo.clientOf Demo.mendedEventsServer) "r1" { sent := [] } 2).1.out
        = (pollResearch Demo.lib (Demo.clientOf Demo.brokenEventsServer) "r1" { sent := [] } 2).1.out :=
  ⟨rfl, rfl, rfl,
   (pollResearch_event_errors_swallowed Demo.lib (Demo.clientOf Demo.brokenEventsServer)
      (Demo.clientOf Demo.mendedEventsServer) "r1" { sent := [] } { sent := [] } 2
      (by intro i hi; interval_cases i <;> rfl)
      (by intro i hi; interval_cases i <;> rfl)).1⟩


/-! ## Accessors and request bodies -/

/-- The decode step leaves the request log of `Client.do` alone. -/
theorem decoded_world {α : Type} (dec : String → Except String α)
    (r : Except String Response × World) :
    (match r with
      | (.error err, w1) => ((.error err : Except String α), w1)
      | (.ok resp, w1) => (decodeWith dec resp, w1)).2 = r.2 := by
  rcases r with ⟨_ | _, w1⟩ <;> rfl

/-- An accessor succeeds only if `Client.do` did, and then returns what the
    decoder made of the response. -/
theorem decoded_ok {α : Type} (dec : String → Except String α)
    (r : Except String Response × World) (a : α)
    (h : (match r with
      | (.error err, w1) => ((.error err : Except String α), w1)
      | (.ok resp, w1) => (decodeWith dec resp, w1)).1 = .ok a) :
    ∃ resp, r.1 = .ok resp ∧ dec resp.Body = .ok a := by
  rcases r with ⟨e | resp, w1⟩
  · simp at h
  · refine ⟨resp, rfl, ?_⟩
    simp only [decodeWith] at h
    cases hd : dec resp.Body with
    | error e => rw [hd] at h; simp at h
    | ok b => rw [hd] at h; simp at h; rw [h]

/-- A failing decoder turns a delivered response into a `decode response`
    error that keeps the cause. -/
theorem decoded_error {α : Type} (dec : String → Except String α)
    (r : Except String Response × World) (resp : Response) (cause : String)
    (hr : r.1 = .ok resp) (hd : dec resp.Body = .error cause) :
    (match r with
      | (.error err, w1) => ((.error err : Except String α), w1)
      | (.ok resp, w1) => (decodeWith dec resp, w1)).1
      = .error ("decode response: " ++ cause) := by
  rcases r with ⟨e | resp1, w1⟩
  · simp at hr
  · simp at hr
    subst hr
    simp [decodeWith, hd]

/-- When `Client.do` returns a response, it has sent exactly the request it built. -/
theorem do_ok_sent (lib : Lib) (c : Client) (method path : String)
    (body : Option Body) (w : World) (resp : Response)
    (h : (c.do_ lib method path body w).1 = .ok resp) :
    ∃ req, c.buildRequest lib method path body = .ok req ∧
      (c.do_ lib method path body w).2.sent = w.sent ++ [req] := by
  cases hb : c.buildRequest lib method path body with
  | error e =>
    unfold Client.do_ at h
    simp [hb] at h
  | ok req => exact ⟨req, rfl, do_sent lib c method path body w req hb⟩

/-- When the request cannot be built, `Client.do` returns that error and
    sends nothing. -/
theorem do_unbuilt (lib : Lib) (c : Client) (method path : String)
    (body : Option Body) (w : World) (err : String)
    (h : c.buildRequest lib method path body = .error err) :
    c.do_ lib method path body w = (.error err, w) := by
  unfold Client.do_
  simp [h]

theorem buildRequest_body (lib : Lib) (c : Client) (method path : String)
    (body : Option Body) (req : Request)
    (h : c.buildRequest lib method path body = .ok req) :
    (req.Body = none ↔ body = none) := by
  unfold Client.buildRequest at h
  cases body with
  | none =>
    simp only [marshalBody] at h
    unfold NewRequest at h
    cases hr : lib.requestError method (c.baseURL ++ path) with
    | some e => simp [hr] at h
    | none =>
      simp [hr] at h
      subst h
      simp
  | some b =>
    simp only [marshalBody] at h
    cases hm : lib.Marshal b with
    | error e => simp [hm] at h
    | ok text =>
      simp only [hm] at h
      unfold NewRequest at h
      cases hr : lib.requestError method (c.baseURL ++ path) with
      | some e => simp [hr] at h
      | none =>
        simp [hr] at h
        subst h
        simp

/-- C11: the map `CreateCollection` passes as request body maps `name` to the
    given name, has the key `description`, mapped to the given description,
    exactly when the description is not empty, and has no other key. -/
theorem createCollection_body (lib : Lib) (c : Client) (name description : String)
    (w : World) :
    c.CreateCollection lib name description w =
        (match c.do_ lib "POST" "/research/collections"
            (some (.stringMap (collectionBody name description))) w with
          | (.error err, w1) => (.error err, w1)
          | (.ok resp, w1) => (decodeWith lib.decodeCollection resp, w1)) ∧
      (collectionBody name description).lookup "name" = some name ∧
      ("description" ∈ Body.keys (.stringMap (collectionBody name description))
        ↔ description ≠ "") ∧
      (description ≠ "" →
        (collectionBody name description).lookup "description" = some description) ∧
      (description = "" → (collectionBody name description).lookup "description" = none) ∧
      (∀ k, k ∈ Body.keys (.stringMap (collectionBody name description)) →
        k = "name" ∨ k = "description") ∧
      (Body.keys (.stringMap (collectionBody name description))).Nodup := by
  refine ⟨rfl, ?_, ?_, ?_, ?_, ?_, ?_⟩
  · by_cases h : description = "" <;>
      simp [collectionBody, mapSet, h, List.lookup]
  · by_cases h : description = "" <;>
      simp [collectionBody, mapSet, h, Body.keys]
  · intro h
    simp [collectionBody, mapSet, h, List.lookup]
  · intro h
    simp [collectionBody, h, List.lookup]
  · intro k
    by_cases h : description = "" <;>
      simp [collectionBody, mapSet, h, Body.keys]
    · intro hk; exact Or.inl hk
  · by_cases h : description = "" <;>
      simp [collectionBody, mapSet, h, Body.keys]


theorem mem_marshalledKeys (fields : List Field) (k : String) :
    k ∈ marshalledKeys fields ↔
      ∃ f, f ∈ fields ∧ f.key = k ∧ (f.omitempty = false ∨ f.value.isEmpty = false) := by
  simp only [marshalledKeys, List.mem_map, List.mem_filter]
  constructor
  · rintro ⟨f, ⟨hf, hc⟩, hk⟩
    refine ⟨f, hf, hk, ?_⟩
    cases ho : f.omitempty <;> cases he : f.value.isEmpty <;> simp [ho, he] at hc ⊢
  · rintro ⟨f, hf, hk, hc⟩
    refine ⟨f, ⟨hf, ?_⟩, hk⟩
    rcases hc with hc | hc <;> simp [hc]

/-- No two fields of `CreateResearchRequest` share a `json` name. -/
theorem fields_key_unique (req : CreateResearchRequest) (f g : Field)
    (hf : f ∈ req.fields) (hg : g ∈ req.fields) (hk : g.key = f.key) : g = f := by
  simp only [CreateResearchRequest.fields, List.mem_cons, List.mem_singleton,
    List.not_mem_nil, or_false] at hf hg
  rcases hf with h | h | h | h | h | h | h | h | h | h | h | h | h | h <;> subst h <;>
    rcases hg with h | h | h | h | h | h | h | h | h | h | h | h | h | h <;> subst h <;>
    first
    | rfl
    | (simp at hk)

/-- A field's member is written exactly when the field is not omitted. -/
theorem field_key_mem_iff (req : CreateResearchRequest) (f : Field)
    (hf : f ∈ req.fields) :
    f.key ∈ Body.keys (.researchRequest req) ↔
      (f.omitempty = false ∨ f.value.isEmpty = false) := by
  simp only [Body.keys]
  rw [mem_marshalledKeys]
  constructor
  · rintro ⟨g, hg, hk, hc⟩
    have := fields_key_unique req f g hf hg hk
    subst this
    exact hc
  · intro hc
    exact ⟨f, hf, rfl, hc⟩


/-- C12: the serialized `CreateResearchRequest` always has the member `query`
    and has each optional member exactly when its field is not empty: a
    non-empty string, a non-empty list, a non-zero integer, a true boolean;
    it has no other member, and it is the body `CreateResearch` passes on. -/
theorem createResearch_body_keys (lib : Lib) (c : Client) (req : CreateResearchRequest)
    (w : World) :
    c.CreateResearch lib req w =
        (match c.do_ lib "POST" "/research" (some (.researchRequest req)) w with
          | (.error err, w1) => (.error err, w1)
          | (.ok resp, w1) => (decodeWith lib.decodeCreateResearchResponse resp, w1)) ∧
      "query" ∈ Body.keys (.researchRequest req) ∧
      ("brainstorm_session_id" ∈ Body.keys (.researchRequest req)
        ↔ req.BrainstormSessionID ≠ "") ∧
      ("system_prompt" ∈ Body.keys (.researchRequest req) ↔ req.SystemPrompt ≠ "") ∧
      ("model" ∈ Body.keys (.researchRequest req) ↔ req.Model ≠ "") ∧
      ("answers" ∈ Body.keys (.researchRequest req) ↔ req.Answers ≠ []) ∧
      ("files" ∈ Body.keys (.researchRequest req) ↔ req.Files ≠ []) ∧
      ("collection_ids" ∈ Body.keys (.researchRequest req) ↔ req.CollectionIDs ≠ []) ∧
      ("excluded_domains" ∈ Body.keys (.researchRequest req) ↔ req.ExcludedDomains ≠ []) ∧
      ("reasoning_loops" ∈ Body.keys (.researchRequest req) ↔ req.ReasoningLoops ≠ 0) ∧
      ("source_timeout" ∈ Body.keys (.researchRequest req) ↔ req.SourceTimeout ≠ 0) ∧
      ("reasoning_mode" ∈ Body.keys (.researchRequest req) ↔ req.ReasoningMode = true) ∧
      ("allow_early_exit" ∈ Body.keys (.researchRequest req) ↔ req.AllowEarlyExit = true) ∧
      ("exclude_social" ∈ Body.keys (.researchRequest req) ↔ req.ExcludeSocial = true) ∧
      ("auto" ∈ Body.keys (.researchRequest req) ↔ req.Auto = true) ∧
      (∀ k, k ∈ Body.keys (.researchRequest req) →
        k ∈ ["query", "brainstorm_session_id", "answers", "files", "collection_ids",
          "reasoning_loops", "source_timeout", "reasoning_mode", "allow_early_exit",
          "exclude_social", "excluded_domains", "auto", "system_prompt", "model"]) := by
  refine ⟨rfl, ?_, ?_, ?_, ?_, ?_, ?_, ?_, ?_, ?_, ?_, ?_, ?_, ?_, ?_, ?_⟩
  · exact (field_key_mem_iff req { key := "query", omitempty := false, value := .string req.Query }
      (by simp [CreateResearchRequest.fields])).2 (Or.inl rfl)
  · exact (field_key_mem_iff req
      { key := "brainstorm_session_id", omitempty := true,
        value := .string req.BrainstormSessionID }
      (by simp [CreateResearchRequest.fields])).trans (by simp [FieldValue.isEmpty])
  · exact (field_key_mem_iff req
      { key := "system_prompt", omitempty := true, value := .string req.SystemPrompt }
      (by simp [CreateResearchRequest.fields])).trans (by simp [FieldValue.isEmpty])
  · exact (field_key_mem_iff req
      { key := "model", omitempty := true, value := .string req.Model }
      (by simp [CreateResearchRequest.fields])).trans (by simp [FieldValue.isEmpty])
  · exact (field_key_mem_iff req
      { key := "answers", omitempty := true, value := .answers req.Answers }
      (by simp [CreateResearchRequest.fields])).trans (by simp [FieldValue.isEmpty])
  · exact (field_key_mem_iff req
      { key := "files", omitempty := true, value := .strings req.Files }
      (by simp [CreateResearchRequest.fields])).trans (by simp [FieldValue.isEmpty])
  · exact (field_key_mem_iff req
      { key := "collection_ids", omitempty := true, value := .strings req.CollectionIDs }
      (by simp [CreateResearchRequest.fields])).trans (by simp [FieldValue.isEmpty])
  · exact (field_key_mem_iff req
      { key := "excluded_domains", omitempty := true, value := .strings req.ExcludedDomains }
      (by simp [CreateResearchRequest.fields])).trans (by simp [FieldValue.isEmpty])
  · exact (field_key_mem_iff req
      { key := "reasoning_loops", omitempty := true, value := .int req.ReasoningLoops }
      (by simp [CreateResearchRequest.fields])).trans (by simp [FieldValue.isEmpty])
  · exact (field_key_mem_iff req
      { key := "source_timeout", omitempty := true, value := .int req.SourceTimeout }
      (by simp [CreateResearchRequest.fields])).trans (by simp [FieldValue.isEmpty])
  · exact (field_key_mem_iff req
      { key := "reasoning_mode", omitempty := true, value := .bool req.ReasoningMode }
      (by simp [CreateResearchRequest.fields])).trans (by simp [FieldValue.isEmpty])
  · exact (field_key_mem_iff req
      { key := "allow_early_exit", omitempty := true, value := .bool req.AllowEarlyExit }
      (by simp [CreateResearchRequest.fields])).trans (by simp [FieldValue.isEmpty])
  · exact (field_key_mem_iff req
      { key := "exclude_social", omitempty := true, value := .bool req.ExcludeSocial }
      (by simp [CreateResearchRequest.fields])).trans (by simp [FieldValue.isEmpty])
  · exact (field_key_mem_iff req
      { key := "auto", omitempty := true, value := .bool req.Auto }
      (by simp [CreateResearchRequest.fields])).trans (by simp [FieldValue.isEmpty])
  · intro k hk
    simp only [Body.keys] at hk
    rw [mem_marshalledKeys] at hk
    obtain ⟨f, hf, rfl, -⟩ := hk
    simp only [CreateResearchRequest.fields, List.mem_cons, List.mem_singleton,
      List.not_mem_nil, or_false] at hf
    rcases hf with h | h | h | h | h | h | h | h | h | h | h | h | h | h <;> subst h <;> simp

/-! ## config.go -/

/-- C15: for a non-empty value `v` of `CAESAR_API_KEY`, `GetAPIKey` returns
    `v` unchanged with a nil error and `client.New` builds a client whose API
    key is `v`; when the variable is empty or unset, `GetAPIKey` returns the
    empty string and the error `environment variable CAESAR_API_KEY is not set`. -/
theorem getAPIKey_spec (env : Environ) (net : HTTPClient) :
    (∀ v, env "CAESAR_API_KEY" = some v → v ≠ "" →
        GetAPIKey env = (v, none) ∧
        New env net = .ok { httpClient := net, baseURL := BaseURL, apiKey := v }) ∧
      ((env "CAESAR_API_KEY" = none ∨ env "CAESAR_API_KEY" = some "") →
        GetAPIKey env = ("", some "environment variable CAESAR_API_KEY is not set") ∧
        New env net = .error "environment variable CAESAR_API_KEY is not set") := by
  constructor
  · intro v hv hne
    have hk : GetAPIKey env = (v, none) := by
      simp [GetAPIKey, Getenv, EnvAPIKey, hv, hne]
    exact ⟨hk, by simp [New, hk]⟩
  · intro h
    have hk : GetAPIKey env = ("", some "environment variable CAESAR_API_KEY is not set") := by
      rcases h with h | h <;> simp [GetAPIKey, Getenv, EnvAPIKey, h]
    exact ⟨hk, by simp [New, hk]⟩

theorem getAPIKey_spec_witness :
    GetAPIKey (Demo.envWithKey "real-key") = ("real-key", none) ∧
      GetAPIKey (Demo.envWithKey "") =
        ("", some "environment variable CAESAR_API_KEY is not set") ∧
      GetAPIKey Demo.noEnv = ("", some "environment variable CAESAR_API_KEY is not set") :=
  ⟨((getAPIKey_spec (Demo.envWithKey "real-key") ⟨Demo.chatServer⟩).1 "real-key" rfl
      (by decide)).1,
   ((getAPIKey_spec (Demo.envWithKey "") ⟨Demo.chatServer⟩).2 (Or.inr rfl)).1,
   ((getAPIKey_spec Demo.noEnv ⟨Demo.chatServer⟩).2 (Or.inl rfl)).1⟩


/-- One call of `Client.do` with a non-empty method issues the listed
    request, or none when the request cannot be built. -/
theorem do_issues_listed (lib : Lib) (c : Client) (method path : String)
    (body : Option Body) (w : World) (hm : method ≠ "") :
    IssuesListed lib c method path body w (c.do_ lib method path body w).2 := by
  unfold IssuesListed
  cases hb : c.buildRequest lib method path body with
  | error e =>
    right
    rw [do_unbuilt lib c method path body w e hb]
    exact ⟨⟨e, rfl⟩, rfl⟩
  | ok req =>
    left
    obtain ⟨-, hu, -⟩ := buildRequest_shape lib c method path body req hb
    refine ⟨req, rfl, do_sent lib c method path body w req hb, ?_, hu,
      buildRequest_body lib c method path body req hb⟩
    rw [buildRequest_method lib c method path body req hb]
    simp [hm]

/-- C18 (as stated, fails): with a research id that `http.NewRequest` rejects,
    `GetResearch` returns the `create request` error and issues no HTTP
    request at all. -/
theorem getResearch_unbuilt_issues_nothing :
    ((Demo.clientOf Demo.growingServer).GetResearch Demo.strictLib "%zz" { sent := [] }).2.sent
        = [] ∧
      ((Demo.clientOf Demo.growingServer).GetResearch Demo.strictLib "%zz" { sent := [] }).1
        = .error ("create request: " ++
            "parse \"http://srv/research/%zz\": invalid URL escape \"%zz\"") :=
  ⟨rfl, rfl⟩

/-- C18 (amended): every resource accessor makes one call of `Client.do` and
    so issues exactly one HTTP request, with the method, path and body listed
    for it, whenever that request can be built, and no request when it cannot
    (the body does not marshal or `http.NewRequest` rejects the URL): the four
    creating accessors `POST` a non-nil body, the six reading accessors `GET`
    with a nil body. -/
theorem accessors_issue_listed_request (lib : Lib) (c : Client) (w : World) :
    (∀ req, IssuesListed lib c "POST" "/research" (some (.researchRequest req)) w
        (c.CreateResearch lib req w).2) ∧
      (∀ query, IssuesListed lib c "POST" "/research/brainstorm"
        (some (.stringMap [("query", query)])) w (c.CreateBrainstorm lib query w).2) ∧
      (∀ id content, IssuesListed lib c "POST" ("/research/" ++ id ++ "/chat")
        (some (.stringMap [("content", content)])) w (c.CreateChatMessage lib id content w).2) ∧
      (∀ name description, IssuesListed lib c "POST" "/research/collections"
        (some (.stringMap (collectionBody name description))) w
        (c.CreateCollection lib name description w).2) ∧
      (∀ id, IssuesListed lib c "GET" ("/research/" ++ id) none w (c.GetResearch lib id w).2) ∧
      (∀ id, IssuesListed lib c "GET" ("/research/" ++ id ++ "/events") none w
        (c.GetResearchEvents lib id w).2) ∧
      (∀ id resultID format, IssuesListed lib c "GET"
        ("/research/" ++ id ++ "/results/" ++ resultID ++ "/content" ++
          (if format = "" then "" else "?format=" ++ format)) none w
        (c.GetResultContent lib id resultID format w).2) ∧
      (∀ id, IssuesListed lib c "GET" ("/research/" ++ id ++ "/chat") none w
        (c.GetChatHistory lib id w).2) ∧
      (∀ id messageID, IssuesListed lib c "GET" ("/research/" ++ id ++ "/chat/" ++ messageID)
        none w (c.GetChatMessage lib id messageID w).2) ∧
      (∀ id messageID, IssuesListed lib c "GET"
        ("/research/" ++ id ++ "/chat/" ++ messageID ++ "/stream") none w
        (c.StreamChatMessage lib id messageID w).2) := by
  refine ⟨?_, ?_, ?_, ?_, ?_, ?_, ?_, ?_, ?_, ?_⟩
  · intro req
    unfold Client.CreateResearch
    rw [decoded_world]
    exact do_issues_listed lib c _ _ _ w (by decide)
  · intro query
    unfold Client.CreateBrainstorm
    rw [decoded_world]
    exact do_issues_listed lib c _ _ _ w (by decide)
  · intro id content
    unfold Client.CreateChatMessage
    rw [decoded_world]
    exact do_issues_listed lib c _ _ _ w (by decide)
  · intro name description
    unfold Client.CreateCollection
    rw [decoded_world]
    exact do_issues_listed lib c _ _ _ w (by decide)
  · intro id
    unfold Client.GetResearch
    rw [decoded_world]
    exact do_issues_listed lib c _ _ _ w (by decide)
  · intro id
    unfold Client.GetResearchEvents
    rw [decoded_world]
    exact do_issues_listed lib c _ _ _ w (by decide)
  · intro id resultID format
    unfold Client.GetResultContent
    rw [decoded_world]
    have hp : resultContentPath id resultID format =
        "/research/" ++ id ++ "/results/" ++ resultID ++ "/content" ++
          (if format = "" then "" else "?format=" ++ format) := by
      unfold resultContentPath
      by_cases hf : format = "" <;> simp [hf]
    rw [hp]
    exact do_issues_listed lib c _ _ _ w (by decide)
  · intro id
    unfold Client.GetChatHistory
    rw [decoded_world]
    exact do_issues_listed lib c _ _ _ w (by decide)
  · intro id messageID
    unfold Client.GetChatMessage
    rw [decoded_world]
    exact do_issues_listed lib c _ _ _ w (by decide)
  · intro id messageID
    unfold Client.StreamChatMessage
    exact do_issues_listed lib c _ _ _ w (by decide)

theorem accessors_issue_listed_request_witness :
    ((Demo.clientOf Demo.growingServer).GetResearchEvents Demo.lib "abc-123" { sent := [] }).2.sent
        = [{ Method := "GET", URL := "http://srv/research/abc-123/events",
             Header := [("Authorization", "Bearer test-key")], Body := none }] ∧
      IssuesListed Demo.lib (Demo.clientOf Demo.growingServer) "GET"
        ("/research/" ++ "abc-123" ++ "/events") none { sent := [] }
        ((Demo.clientOf Demo.growingServer).GetResearchEvents Demo.lib "abc-123" { sent := [] }).2 :=
  ⟨rfl,
   (accessors_issue_listed_request Demo.lib (Demo.clientOf Demo.growingServer)
      { sent := [] }).2.2.2.2.2.1 "abc-123"⟩


theorem hasQuery_false_of_no_mark (url : String) (h : '?' ∉ url.data) :
    hasQuery url = false := by
  unfold hasQuery
  rw [Bool.eq_false_iff]
  intro hc
  rw [List.contains_iff_exists_mem_beq] at hc
  obtain ⟨ch, hmem, hbeq⟩ := hc
  have hch : '?' = ch := by simpa using hbeq
  subst hch
  exact h ((List.takeWhile_sublist _).subset hmem)

/-- C19 (as stated, fails): the ids are inserted into the path as they are, so
    with the research id `r1?x=1` and an empty format the one request sent is
    for `http://srv/research/r1?x=1/results/res1/content`, a URL with a query
    string. -/
theorem getResultContent_empty_format_query :
    ((Demo.clientOf Demo.growingServer).GetResultContent Demo.lib "r1?x=1" "res1" ""
        { sent := [] }).2.sent = [Demo.markedContentRequest] ∧
      Demo.markedContentRequest.URL = "http://srv/research/r1?x=1/results/res1/content" ∧
      hasQuery Demo.markedContentRequest.URL = true :=
  ⟨rfl, rfl, by decide⟩

/-- C19 (amended): the request `GetResultContent` sends is for
    `/research/<researchID>/results/<resultID>/content`, followed by
    `?format=<format>` exactly when `format` is not empty; with an empty format
    nothing follows the path, and the URL has no query part at all when the
    base URL and the two ids, which are inserted as they are, contain no `?`. -/
theorem getResultContent_path (lib : Lib) (c : Client)
    (researchID resultID format : String) (w : World) (req : Request)
    (hreq : c.buildRequest lib "GET" (resultContentPath researchID resultID format) none
      = .ok req) :
    (c.GetResultContent lib researchID resultID format w).2.sent = w.sent ++ [req] ∧
      (format ≠ "" →
        req.URL = c.baseURL ++ "/research/" ++ researchID ++ "/results/" ++ resultID
          ++ "/content" ++ "?format=" ++ format) ∧
      (format = "" →
        req.URL = c.baseURL ++ "/research/" ++ researchID ++ "/results/" ++ resultID
          ++ "/content") ∧
      (format = "" → '?' ∉ c.baseURL.data → '?' ∉ researchID.data → '?' ∉ resultID.data →
        hasQuery req.URL = false) := by
  obtain ⟨-, hu, -⟩ := buildRequest_shape lib c _ _ _ req hreq
  have hsent : (c.GetResultContent lib researchID resultID format w).2.sent = w.sent ++ [req] := by
    unfold Client.GetResultContent
    rw [decoded_world]
    exact do_sent lib c _ _ _ w req hreq
  have hempty : format = "" →
      req.URL = c.baseURL ++ "/research/" ++ researchID ++ "/results/" ++ resultID
        ++ "/content" := by
    intro hf
    rw [hu]
    simp [resultContentPath, hf, String.append_assoc]
  refine ⟨hsent, ?_, hempty, ?_⟩
  · intro hf
    rw [hu]
    simp only [resultContentPath, ne_eq, hf, not_false_eq_true, if_true, String.append_assoc]
  · intro hf hb hr hs
    apply hasQuery_false_of_no_mark
    rw [hempty hf]
    simp only [String.data_append, List.mem_append, not_or]
    exact ⟨⟨⟨⟨⟨hb, by decide⟩, hr⟩, by decide⟩, hs⟩, by decide⟩

theorem getResultContent_path_witness :
    (Demo.clientOf Demo.growingServer).buildRequest Demo.lib "GET"
        (resultContentPath "r1" "res1" "markdown") none = .ok Demo.contentRequest ∧
      ((Demo.clientOf Demo.growingServer).GetResultContent Demo.lib "r1" "res1" "markdown"
          { sent := [] }).2.sent = [] ++ [Demo.contentRequest] :=
  ⟨rfl,
   (getResultContent_path Demo.lib (Demo.clientOf Demo.growingServer) "r1" "res1" "markdown"
      { sent := [] } Demo.contentRequest rfl).1⟩

/-! ## Error phases -/

/-- C20: each failing phase of a request gives its own context prefix
    followed by the cause: `marshal request: ` when the body does not
    serialize, `create request: ` when the request cannot be built,
    `request failed: ` when sending fails, and `decode response: ` when an
    accessor cannot decode the response body; these four prefixes and
    `API error ` are pairwise different, and none begins another. -/
theorem error_phases_distinct (lib : Lib) (c : Client) (method path : String) (w : World) :
    (∀ b cause, lib.Marshal b = .error cause →
        c.do_ lib method path (some b) w = (.error ("marshal request: " ++ cause), w)) ∧
      (∀ body reqBody cause, marshalBody lib body = .ok reqBody →
        lib.requestError method (c.baseURL ++ path) = some cause →
        c.do_ lib method path body w = (.error ("create request: " ++ cause), w)) ∧
      (∀ body req cause, c.buildRequest lib method path body = .ok req →
        c.httpClient.Do w.sent req = .error cause →
        (c.do_ lib method path body w).1 = .error ("request failed: " ++ cause)) ∧
      (∀ id resp cause, (c.do_ lib "GET" ("/research/" ++ id) none w).1 = .ok resp →
        lib.decodeResearchObject resp.Body = .error cause →
        (c.GetResearch lib id w).1 = .error ("decode response: " ++ cause)) ∧
      (∀ {α : Type} (dec : String → Except String α) resp cause,
        dec resp.Body = .error cause →
        decodeWith dec resp = .error ("decode response: " ++ cause)) ∧
      errorPrefixes.Pairwise
        (fun a b => a ≠ b ∧ a.data.isPrefixOf b.data = false ∧ b.data.isPrefixOf a.data = false) := by
  refine ⟨?_, ?_, ?_, ?_, ?_, by decide⟩
  · intro b cause hm
    apply do_unbuilt
    simp [Client.buildRequest, marshalBody, hm]
  · intro body reqBody cause hm hr
    apply do_unbuilt
    simp [Client.buildRequest, hm, NewRequest, hr]
  · intro body req cause hb hd
    unfold Client.do_
    simp [hb, hd]
  · intro id resp cause hr hd
    unfold Client.GetResearch
    exact decoded_error lib.decodeResearchObject _ resp cause hr hd
  · intro α dec resp cause hd
    simp [decodeWith, hd]

theorem error_phases_distinct_witness :
    (Demo.clientOf Demo.vanishingServer).do_ Demo.lib "GET" "/test" none
        { sent := [Demo.getTest, Demo.getTest] }
        = (.error "request failed: connection refused",
           { sent := [Demo.getTest, Demo.getTest, Demo.getTest] }) ∧
      ((Demo.clientOf Demo.vanishingServer).do_ Demo.lib "GET" "/test" none
        { sent := [Demo.getTest, Demo.getTest] }).1
        = .error ("request failed: " ++ "connection refused") :=
  ⟨rfl,
   (error_phases_distinct Demo.lib (Demo.clientOf Demo.vanishingServer) "GET" "/test"
      { sent := [Demo.getTest, Demo.getTest] }).2.2.1 none Demo.getTest "connection refused"
      rfl rfl⟩


/-! ## The commands -/

/-- A successful accessor call has sent exactly the request it built. -/
theorem createResearch_ok_sent (lib : Lib) (c : Client) (req : CreateResearchRequest)
    (w w1 : World) (resp : CreateResearchResponse)
    (h : c.CreateResearch lib req w = (.ok resp, w1)) :
    ∃ r, w1.sent = w.sent ++ [r] ∧ r.Method = "POST" ∧ r.URL = c.baseURL ++ "/research" ∧
      r.Body ≠ none := by
  have h1 : (c.CreateResearch lib req w).1 = .ok resp := by rw [h]
  have h2 : (c.CreateResearch lib req w).2 = w1 := by rw [h]
  unfold Client.CreateResearch at h1 h2
  rw [decoded_world] at h2
  obtain ⟨rsp, hr, -⟩ := decoded_ok _ _ _ h1
  obtain ⟨r, hb, hs⟩ := do_ok_sent lib c _ _ _ w rsp hr
  obtain ⟨-, hu, -⟩ := buildRequest_shape lib c _ _ _ r hb
  refine ⟨r, ?_, ?_, hu, ?_⟩
  · rw [← h2]; exact hs
  · rw [buildRequest_method lib c _ _ _ r hb]; simp
  · intro hn
    have := (buildRequest_body lib c _ _ _ r hb).1 hn
    simp at this

/-- C13: in a run of `research create` whose client is built and whose
    creation call succeeds, with `no-wait` set the command has issued exactly
    one request, the `POST /research`, prints the creation response and is
    done without any polling; without `no-wait` it runs `pollResearch` with
    the id of the creation response, is done when that returns, and then
    prints the job record `pollResearch` returned. -/
theorem researchCreate_polls_unless_noWait (lib : Lib) (encode : Encoder) (c : Client)
    (flags : CreateFlags) (query : String) (rounds : Nat) (p : Proc)
    (resp : CreateResearchResponse) (w1 : World)
    (hcreate : c.CreateResearch lib (flags.request query) p.world = (.ok resp, w1)) :
    (flags.noWait = true →
        researchCreateCmd lib encode (.ok c) flags query rounds p =
          some (output.JSON encode (.createResearchResponse resp) { p with world := w1 }) ∧
        ∃ r, (output.JSON encode (.createResearchResponse resp)
              { p with world := w1 }).world.sent = p.world.sent ++ [r] ∧
          r.Method = "POST" ∧ r.URL = c.baseURL ++ "/research") ∧
      (flags.noWait = false →
        (∀ s result, pollResearch lib c resp.ID w1 rounds = (s, some (.ok result)) →
          researchCreateCmd lib encode (.ok c) flags query rounds p =
            some (output.JSON encode (.researchObject result)
              { p with world := s.world, cmdOut := p.cmdOut ++ s.out })) ∧
        (∀ s err, pollResearch lib c resp.ID w1 rounds = (s, some (.error err)) →
          researchCreateCmd lib encode (.ok c) flags query rounds p =
            some (output.Error err { p with world := s.world, cmdOut := p.cmdOut ++ s.out })) ∧
        ((pollResearch lib c resp.ID w1 rounds).2 = none →
          researchCreateCmd lib encode (.ok c) flags query rounds p = none)) := by
  constructor
  · intro hn
    refine ⟨by simp [researchCreateCmd, hcreate, hn], ?_⟩
    obtain ⟨r, hs, hm, hu, -⟩ := createResearch_ok_sent lib c _ _ _ _ hcreate
    refine ⟨r, ?_, hm, hu⟩
    unfold output.JSON
    cases encode (.createResearchResponse resp) <;> exact hs
  · intro hn
    refine ⟨?_, ?_, ?_⟩
    · intro s result hp
      simp [researchCreateCmd, hcreate, hn, hp]
    · intro s err hp
      simp [researchCreateCmd, hcreate, hn, hp]
    · intro hp
      rcases hq : pollResearch lib c resp.ID w1 rounds with ⟨s, _ | r⟩
      · simp [researchCreateCmd, hcreate, hn, hq]
      · rw [hq] at hp; simp at hp

theorem researchCreate_polls_unless_noWait_witness :
    (Demo.clientOf Demo.createServer).CreateResearch Demo.chatLib
        ((Demo.flags true).request "my research question") Demo.fresh.world
        = (.ok { ID := "res-99", Status := "queued" }, { sent := [Demo.createRequest] }) ∧
      researchCreateCmd Demo.chatLib Demo.encode (.ok (Demo.clientOf Demo.createServer))
          (Demo.flags true) "my research question" 0 Demo.fresh
        = some (output.JSON Demo.encode (.createResearchResponse { ID := "res-99", Status := "queued" })
            { Demo.fresh with world := { sent := [Demo.createRequest] } }) ∧
      (output.JSON Demo.encode (.createResearchResponse { ID := "res-99", Status := "queued" })
            { Demo.fresh with world := { sent := [Demo.createRequest] } }).stdout
        = "created res-99\n" :=
  ⟨rfl,
   ((researchCreate_polls_unless_noWait Demo.chatLib Demo.encode
      (Demo.clientOf Demo.createServer) (Demo.flags true) "my research question" 0 Demo.fresh
      { ID := "res-99", Status := "queued" } { sent := [Demo.createRequest] } rfl).1 rfl).1,
   rfl⟩

/-- C14: when `CAESAR_API_KEY` is unset or empty and the client comes from
    `client.New`, each of the eight commands that talk to the network ends in
    `output.Error` with the configuration error: the message goes to the error
    stream, the exit code is 1, nothing is printed, and no HTTP request is
    issued. -/
theorem commands_fail_without_api_key (env : Environ) (net : HTTPClient)
    (hkey : env "CAESAR_API_KEY" = none ∨ env "CAESAR_API_KEY" = some "")
    (lib : Lib) (encode : Encoder) (p : Proc) :
    (output.Error "environment variable CAESAR_API_KEY is not set" p =
        { p with stderr := p.stderr ++ "Error: environment variable CAESAR_API_KEY is not set\n",
                 exitCalls := p.exitCalls ++ [1] }) ∧
      (∀ flags query rounds, researchCreateCmd lib encode (New env net) flags query rounds p
        = some (output.Error "environment variable CAESAR_API_KEY is not set" p)) ∧
      (∀ id, researchGetCmd lib encode (New env net) id p
        = output.Error "environment variable CAESAR_API_KEY is not set" p) ∧
      (∀ id, researchEventsCmd lib encode (New env net) id p
        = output.Error "environment variable CAESAR_API_KEY is not set" p) ∧
      (∀ id rounds, researchWatchCmd lib encode (New env net) id rounds p
        = some (output.Error "environment variable CAESAR_API_KEY is not set" p)) ∧
      (∀ wait id message polls, chatSendCmd lib encode (New env net) wait id message polls p
        = some (output.Error "environment variable CAESAR_API_KEY is not set" p)) ∧
      (∀ id, chatHistoryCmd lib encode (New env net) id p
        = output.Error "environment variable CAESAR_API_KEY is not set" p) ∧
      (∀ visit query, brainstormCmd lib visit (New env net) query p
        = output.Error "environment variable CAESAR_API_KEY is not set" p) ∧
      (∀ description name, collectionsCreateCmd lib encode (New env net) description name p
        = output.Error "environment variable CAESAR_API_KEY is not set" p) := by
  have hnew : New env net = .error "environment variable CAESAR_API_KEY is not set" := by
    rcases hkey with h | h <;> simp [New, GetAPIKey, Getenv, EnvAPIKey, h]
  refine ⟨?_, ?_, ?_, ?_, ?_, ?_, ?_, ?_, ?_⟩
  · simp [output.Error, String.append_assoc]
  · intro flags query rounds; simp [researchCreateCmd, hnew]
  · intro id; simp [researchGetCmd, hnew]
  · intro id; simp [researchEventsCmd, hnew]
  · intro id rounds; simp [researchWatchCmd, hnew]
  · intro wait id message polls; simp [chatSendCmd, hnew]
  · intro id; simp [chatHistoryCmd, hnew]
  · intro visit query; simp [brainstormCmd, hnew]
  · intro description name; simp [collectionsCreateCmd, hnew]

theorem commands_fail_without_api_key_witness :
    researchGetCmd Demo.lib Demo.encode (New Demo.noEnv ⟨Demo.growingServer⟩) "r1" Demo.fresh
      = { world := { sent := [] }, stdout := "",
          stderr := "Error: environment variable CAESAR_API_KEY is not set\n",
          cmdOut := "", exitCalls := [1] } :=
  ((commands_fail_without_api_key Demo.noEnv ⟨Demo.growingServer⟩ (Or.inl rfl)
      Demo.lib Demo.encode Demo.fresh).2.2.1 "r1").trans rfl


/-- A successful poll of a chat message has sent exactly one request, a `GET`
    of the message's path. -/
theorem getChatMessage_ok_sent (lib : Lib) (c : Client) (researchID messageID : String)
    (w w1 : World) (msg : ChatMessage)
    (h : c.GetChatMessage lib researchID messageID w = (.ok msg, w1)) :
    ∃ r, w1.sent = w.sent ++ [r] ∧ r.Method = "GET" ∧
      r.URL = c.baseURL ++ "/research/" ++ researchID ++ "/chat/" ++ messageID := by
  have h1 : (c.GetChatMessage lib researchID messageID w).1 = .ok msg := by rw [h]
  have h2 : (c.GetChatMessage lib researchID messageID w).2 = w1 := by rw [h]
  unfold Client.GetChatMessage at h1 h2
  rw [decoded_world] at h2
  obtain ⟨rsp, hr, -⟩ := decoded_ok _ _ _ h1
  obtain ⟨r, hb, hs⟩ := do_ok_sent lib c _ _ _ w rsp hr
  obtain ⟨-, hu, -⟩ := buildRequest_shape lib c _ _ _ r hb
  refine ⟨r, ?_, ?_, ?_⟩
  · rw [← h2]; exact hs
  · rw [buildRequest_method lib c _ _ _ r hb]; simp
  · rw [hu]; simp only [String.append_assoc]

/-- The chat loop, from a message that is `processing` through `k`
    successful polls to the first message that is not. -/
theorem chatPoll_until_done (lib : Lib) (c : Client) (researchID : String) (k : Nat) :
    ∀ (msg : ChatMessage) (w : World) (final : ChatMessage) (wk : World),
      (∀ i, i < k → StillProcessing lib c researchID msg w i) →
      chatAfter lib c researchID k msg w = some (final, wk) →
      final.Status ≠ "processing" →
      (∀ polls, polls < k → chatPoll lib c researchID polls msg w = none) ∧
        (∀ polls, k ≤ polls → chatPoll lib c researchID polls msg w = some (.ok final, wk)) ∧
        ∃ reqs, wk.sent = w.sent ++ reqs ∧ reqs.length = k ∧
          ∀ r, r ∈ reqs → r.Method = "GET" := by
  induction k with
  | zero =>
    intro msg w final wk _ hk hdone
    simp only [chatAfter, Option.some.injEq, Prod.mk.injEq] at hk
    obtain ⟨rfl, rfl⟩ := hk
    refine ⟨fun polls hp => absurd hp (Nat.not_lt_zero _), fun polls _ => ?_,
      [], by simp, rfl, by simp⟩
    cases polls <;> simp [chatPoll, hdone]
  | succ k ih =>
    intro msg w final wk hbusy hk hdone
    have h0 : msg.Status = "processing" := by
      obtain ⟨m, w1, hm, hs⟩ := hbusy 0 (by omega)
      simp only [chatAfter, Option.some.injEq, Prod.mk.injEq] at hm
      obtain ⟨rfl, rfl⟩ := hm
      exact hs
    rcases hg : c.GetChatMessage lib researchID msg.ID w with ⟨_ | next, w1⟩
    · simp [chatAfter, hg] at hk
    · have hk1 : chatAfter lib c researchID k next w1 = some (final, wk) := by
        simpa [chatAfter, hg] using hk
      have hbusy1 : ∀ i, i < k → StillProcessing lib c researchID next w1 i := by
        intro i hi
        obtain ⟨m, w2, hm, hs⟩ := hbusy (i + 1) (by omega)
        exact ⟨m, w2, by simpa [chatAfter, hg] using hm, hs⟩
      obtain ⟨hbefore, hafter, reqs, hsent, hlen, hget⟩ :=
        ih next w1 final wk hbusy1 hk1 hdone
      obtain ⟨r, hr, hmeth, -⟩ := getChatMessage_ok_sent lib c _ _ _ _ _ hg
      refine ⟨?_, ?_, r :: reqs, ?_, by simp [hlen], ?_⟩
      · intro polls hp
        cases polls with
        | zero => simp [chatPoll, h0]
        | succ n =>
          simp only [chatPoll, h0, if_true, hg]
          exact hbefore n (by omega)
      · intro polls hp
        cases polls with
        | zero => omega
        | succ n =>
          simp only [chatPoll, h0, if_true, hg]
          exact hafter n (by omega)
      · rw [hsent, hr]; simp
      · intro x hx
        simp only [List.mem_cons] at hx
        rcases hx with rfl | hx
        · exact hmeth
        · exact hget x hx

/-- C16: in `chat send` with waiting, when the created message and the first
    `k - 1` polled messages have status `processing` and message `k` (the
    created one for `k = 0`) has any other status, the loop has not ended
    within fewer than `k` polls, ends with message `k` after exactly `k`
    `GetChatMessage` requests, and the command prints the content of
    message `k`.  Any status other than exactly `processing` ends it. -/
theorem chatSend_polls_until_not_processing (lib : Lib) (encode : Encoder) (c : Client)
    (researchID message : String) (p : Proc) (created : ChatMessage) (w0 : World)
    (k : Nat) (final : ChatMessage) (wk : World)
    (hcreate : c.CreateChatMessage lib researchID message p.world = (.ok created, w0))
    (hbusy : ∀ i, i < k → StillProcessing lib c researchID created w0 i)
    (hk : chatAfter lib c researchID k created w0 = some (final, wk))
    (hdone : final.Status ≠ "processing") :
    (∀ polls, polls < k →
        chatSendCmd lib encode (.ok c) true researchID message polls p = none) ∧
      (∀ polls, k ≤ polls →
        chatSendCmd lib encode (.ok c) true researchID message polls p =
          some { p with world := wk, cmdOut := printChatMessage p.cmdOut final }) ∧
      (∃ reqs, wk.sent = w0.sent ++ reqs ∧ reqs.length = k ∧
        ∀ r, r ∈ reqs → r.Method = "GET") ∧
      (∃ rest, printChatMessage p.cmdOut final = p.cmdOut ++ (final.Content ++ "\n") ++ rest) := by
  obtain ⟨hbefore, hafter, hreqs⟩ :=
    chatPoll_until_done lib c researchID k created w0 final wk hbusy hk hdone
  refine ⟨?_, ?_, hreqs, ?_⟩
  · intro polls hp
    simp [chatSendCmd, hcreate, hbefore polls hp]
  · intro polls hp
    simp [chatSendCmd, hcreate, hafter polls hp]
  · unfold printChatMessage
    by_cases hres : final.Results.length > 0
    · simp only [hres, if_true]
      have hfold : ∀ (l : List ResearchResult) (acc : String),
          l.foldl (fun acc r => acc ++ formatSource r) acc
            = acc ++ l.foldl (fun acc r => acc ++ formatSource r) "" := by
        intro l
        induction l with
        | nil => intro acc; simp
        | cons r rest ih =>
          intro acc
          simp only [List.foldl_cons]
          rw [ih (acc ++ formatSource r), ih ("" ++ formatSource r)]
          simp [String.append_assoc]
      rw [hfold]
      exact ⟨"\nSources:\n" ++ final.Results.foldl (fun acc r => acc ++ formatSource r) "",
        by simp only [String.append_assoc]⟩
    · simp only [hres, if_false]
      exact ⟨"", by simp⟩


theorem chatSend_polls_until_not_processing_witness :
    (∀ i, i < 3 → StillProcessing Demo.chatLib (Demo.clientOf Demo.chatServer) "r1"
        Demo.processingMessage { sent := [Demo.chatCreateRequest] } i) ∧
      chatSendCmd Demo.chatLib Demo.encode (.ok (Demo.clientOf Demo.chatServer)) true
          "r1" "question" 2 Demo.fresh = none ∧
      chatSendCmd Demo.chatLib Demo.encode (.ok (Demo.clientOf Demo.chatServer)) true
          "r1" "question" 3 Demo.fresh =
        some { Demo.fresh with
          world := { sent := [Demo.chatCreateRequest, Demo.chatPollRequest,
            Demo.chatPollRequest, Demo.chatPollRequest] },
          cmdOut := printChatMessage Demo.fresh.cmdOut Demo.completedMessage } ∧
      printChatMessage Demo.fresh.cmdOut Demo.completedMessage =
        "The answer is 42.\n\nSources:\n  [1] Source A - https://example.com/a\n" ∧
      chatSendCmd Demo.chatLib Demo.encode (.ok (Demo.clientOf Demo.emptyStatusChatServer)) true
          "r1" "question" 1 Demo.fresh =
        some { Demo.fresh with
          world := { sent := [Demo.chatCreateRequest, Demo.chatPollRequest] },
          cmdOut := printChatMessage Demo.fresh.cmdOut
            { ID := "msg-1", Status := "", Content := "partial", Results := [] } } :=
  have hbusy : ∀ i, i < 3 → StillProcessing Demo.chatLib (Demo.clientOf Demo.chatServer) "r1"
      Demo.processingMessage { sent := [Demo.chatCreateRequest] } i := by
    intro i hi
    interval_cases i
    · exact ⟨_, _, rfl, rfl⟩
    · exact ⟨_, _, rfl, rfl⟩
    · exact ⟨_, _, rfl, rfl⟩
  have h := chatSend_polls_until_not_processing Demo.chatLib Demo.encode
    (Demo.clientOf Demo.chatServer) "r1" "question" Demo.fresh Demo.processingMessage
    { sent := [Demo.chatCreateRequest] } 3 Demo.completedMessage
    { sent := [Demo.chatCreateRequest, Demo.chatPollRequest, Demo.chatPollRequest,
        Demo.chatPollRequest] }
    rfl hbusy rfl (by decide)
  have h2 := chatSend_polls_until_not_processing Demo.chatLib Demo.encode
    (Demo.clientOf Demo.emptyStatusChatServer) "r1" "question" Demo.fresh Demo.processingMessage
    { sent := [Demo.chatCreateRequest] } 1
    { ID := "msg-1", Status := "", Content := "partial", Results := [] }
    { sent := [Demo.chatCreateRequest, Demo.chatPollRequest] }
    rfl
    (by
      intro i hi
      interval_cases i
      exact ⟨_, _, rfl, rfl⟩)
    rfl (by decide)
  ⟨hbusy, h.1 2 (by decide), h.2.1 3 (by decide), rfl, h2.2.1 1 (by decide)⟩

/-- C17 (the code at the failing input): against a server whose poll answer
    leaves out the message id, the second `GetChatMessage` request of
    `chat send` goes to `/research/r1/chat/`, not to the message `msg-1`
    that `CreateChatMessage` returned: the loop takes the id from the message
    it polled last. -/
theorem chatSend_polls_latest_id :
    (chatSendCmd Demo.chatLib Demo.encode (.ok (Demo.clientOf Demo.idlessChatServer)) true
        "r1" "question" 2 Demo.fresh).map
        (fun p => p.world.sent.map (fun r => (r.Method, r.URL)))
      = some [("POST", "http://srv/research/r1/chat"),
              ("GET", "http://srv/research/r1/chat/msg-1"),
              ("GET", "http://srv/research/r1/chat/")] := by
  rfl


/-! ## Verbatim identifiers -/

/-- C26: identifiers go into request paths as they are: `GetResearch` called
    with `id ++ "/events"` builds and issues the very request `GetResearchEvents`
    issues for `id` (same method, URL, headers and body, same answer of
    `Client.do`), and `GetResearch` with `id ++ "/chat"` the request of
    `GetChatHistory` for `id`. -/
theorem getResearch_path_is_verbatim (lib : Lib) (c : Client) (id : String) (w : World) :
    c.buildRequest lib "GET" ("/research/" ++ (id ++ "/events")) none
        = c.buildRequest lib "GET" ("/research/" ++ id ++ "/events") none ∧
      (c.GetResearch lib (id ++ "/events") w).2 = (c.GetResearchEvents lib id w).2 ∧
      c.do_ lib "GET" ("/research/" ++ (id ++ "/events")) none w
        = c.do_ lib "GET" ("/research/" ++ id ++ "/events") none w ∧
      c.buildRequest lib "GET" ("/research/" ++ (id ++ "/chat")) none
        = c.buildRequest lib "GET" ("/research/" ++ id ++ "/chat") none ∧
      (c.GetResearch lib (id ++ "/chat") w).2 = (c.GetChatHistory lib id w).2 ∧
      c.do_ lib "GET" ("/research/" ++ (id ++ "/chat")) none w
        = c.do_ lib "GET" ("/research/" ++ id ++ "/chat") none w := by
  have h1 : "/research/" ++ (id ++ "/events") = "/research/" ++ id ++ "/events" := by
    rw [String.append_assoc]
  have h2 : "/research/" ++ (id ++ "/chat") = "/research/" ++ id ++ "/chat" := by
    rw [String.append_assoc]
  refine ⟨by rw [h1], ?_, by rw [h1], by rw [h2], ?_, by rw [h2]⟩
  · unfold Client.GetResearch Client.GetResearchEvents
    rw [decoded_world, decoded_world, h1]
  · unfold Client.GetResearch Client.GetChatHistory
    rw [decoded_world, decoded_world, h2]

/-! ## The text of chat send -/

theorem foldl_formatSource (results : List ResearchResult) (out : String) :
    results.foldl (fun acc r => acc ++ formatSource r) out = out ++ sourceLines results := by
  induction results generalizing out with
  | nil => simp [sourceLines]
  | cons r rest ih =>
    simp only [List.foldl_cons, sourceLines]
    rw [ih]
    simp only [formatSource, String.append_assoc]

/-- The text `chat send` writes for a message is its content and a newline,
    then the sources section. -/
theorem printChatMessage_eq (out : String) (msg : ChatMessage) :
    printChatMessage out msg = out ++ (msg.Content ++ "\n") ++ sourcesSection msg.Results := by
  unfold printChatMessage sourcesSection
  cases hr : msg.Results with
  | nil => simp
  | cons r rest =>
    simp only [List.length_cons, gt_iff_lt, Nat.zero_lt_succ, if_true]
    rw [foldl_formatSource]
    simp only [String.append_assoc]

/-- C22: when `chat send` with waiting ends with the message `final`, what it
    has written is the message content and a newline, followed by the sources
    section exactly when the result list is not empty: a blank line, the line
    `Sources:` and one line `  [<citation index>] <title> - <url>` per
    result, in list order. -/
theorem chatSend_prints_content_and_sources (lib : Lib) (encode : Encoder) (c : Client)
    (researchID message : String) (polls : Nat) (p : Proc) (created final : ChatMessage)
    (w0 wk : World)
    (hcreate : c.CreateChatMessage lib researchID message p.world = (.ok created, w0))
    (hpoll : chatPoll lib c researchID polls created w0 = some (.ok final, wk)) :
    (∃ done, chatSendCmd lib encode (.ok c) true researchID message polls p = some done ∧
        done.cmdOut = p.cmdOut ++ (final.Content ++ "\n") ++ sourcesSection final.Results ∧
        done.stdout = p.stdout ∧ done.stderr = p.stderr) ∧
      (final.Results = [] → sourcesSection final.Results = "") ∧
      (final.Results ≠ [] →
        sourcesSection final.Results = "\nSources:\n" ++ sourceLines final.Results) ∧
      (∀ r rest, sourceLines (r :: rest) =
        ("  [" ++ toString r.CitationIndex ++ "] " ++ r.Title ++ " - " ++ r.URL ++ "\n")
          ++ sourceLines rest) ∧
      sourceLines [] = "" := by
  refine ⟨⟨{ p with world := wk, cmdOut := printChatMessage p.cmdOut final }, ?_, ?_, rfl, rfl⟩,
    ?_, ?_, fun _ _ => rfl, rfl⟩
  · simp [chatSendCmd, hcreate, hpoll]
  · exact printChatMessage_eq p.cmdOut final
  · intro h; simp [sourcesSection, h]
  · intro h
    cases hr : final.Results with
    | nil => exact absurd hr h
    | cons r rest => simp [sourcesSection]

theorem chatSend_prints_content_and_sources_witness :
    chatPoll Demo.chatLib (Demo.clientOf Demo.chatServer) "r1" 3 Demo.processingMessage
        { sent := [Demo.chatCreateRequest] }
        = some (.ok Demo.completedMessage,
            { sent := [Demo.chatCreateRequest, Demo.chatPollRequest, Demo.chatPollRequest,
                Demo.chatPollRequest] }) ∧
      (Demo.fresh.cmdOut ++ (Demo.completedMessage.Content ++ "\n")
          ++ sourcesSection Demo.completedMessage.Results
        = "The answer is 42.\n\nSources:\n  [1] Source A - https://example.com/a\n") ∧
      ∃ done, chatSendCmd Demo.chatLib Demo.encode (.ok (Demo.clientOf Demo.chatServer)) true
          "r1" "question" 3 Demo.fresh = some done ∧
        done.cmdOut = Demo.fresh.cmdOut ++ (Demo.completedMessage.Content ++ "\n")
          ++ sourcesSection Demo.completedMessage.Results ∧
        done.stdout = Demo.fresh.stdout ∧ done.stderr = Demo.fresh.stderr :=
  ⟨rfl, rfl,
   (chatSend_prints_content_and_sources Demo.chatLib Demo.encode
      (Demo.clientOf Demo.chatServer) "r1" "question" 3 Demo.fresh Demo.processingMessage
      Demo.completedMessage { sent := [Demo.chatCreateRequest] }
      { sent := [Demo.chatCreateRequest, Demo.chatPollRequest, Demo.chatPollRequest,
          Demo.chatPollRequest] } rfl rfl).1⟩


/-! ## The positional diff -/

/-- What the merge step does with a successfully fetched list. -/
theorem mergeEvents_ok (s : PollState) (events : List ResearchEvent) (w : World) :
    (events.length > s.seenEvents →
        mergeEvents s (.ok events) w =
          { seenEvents := events.length,
            out := s.out ++ renderEvents (events.drop s.seenEvents), world := w }) ∧
      (events.length ≤ s.seenEvents →
        mergeEvents s (.ok events) w = { s with world := w }) := by
  constructor
  · intro h
    simp only [mergeEvents, h, if_true]
    rw [emitEvents_eq]
  · intro h
    have : ¬ events.length > s.seenEvents := by omega
    simp only [mergeEvents, this, if_false]

/-- C23: in a round whose status fetch succeeds and whose event fetch succeeds
    with the list `events` while the count is `s.seenEvents`: if the list is
    longer than the count, exactly the events from position `s.seenEvents` on
    are written, in order, and the count becomes the length of the list;
    otherwise nothing is written and the count stays.  This happens before
    the status is looked at, so also in a round whose status is terminal, and
    it depends on the length of the list and on its part beyond the count
    only, not on the events before. -/
theorem pollRound_positional_diff (lib : Lib) (c : Client) (id : String) (s : PollState)
    (res : ResearchObject) (events : List ResearchEvent)
    (hstatus : (c.GetResearch lib id s.world).1 = .ok res)
    (hevents : (c.GetResearchEvents lib id (c.GetResearch lib id s.world).2).1 = .ok events) :
    (events.length > s.seenEvents →
        (pollRound lib c id s).1.out = s.out ++ renderEvents (events.drop s.seenEvents) ∧
        (pollRound lib c id s).1.seenEvents = events.length) ∧
      (events.length ≤ s.seenEvents →
        (pollRound lib c id s).1.out = s.out ∧
        (pollRound lib c id s).1.seenEvents = s.seenEvents) ∧
      (pollRound lib c id s).2 = statusVerdict id res ∧
      (∀ (other : List ResearchEvent) (w : World), other.length = events.length →
        other.drop s.seenEvents = events.drop s.seenEvents →
        mergeEvents s (.ok other) w = mergeEvents s (.ok events) w) := by
  rw [pollRound_status_ok lib c id s res hstatus, hevents]
  refine ⟨?_, ?_, rfl, ?_⟩
  · intro h
    rw [(mergeEvents_ok s events _).1 h]
    exact ⟨rfl, rfl⟩
  · intro h
    rw [(mergeEvents_ok s events _).2 h]
    exact ⟨rfl, rfl⟩
  · intro other w hlen hdrop
    simp only [mergeEvents, hlen, hdrop]

theorem pollRound_positional_diff_witness :
    Demo.afterFirstRound.seenEvents = 1 ∧
      Demo.afterFirstRound.out = "[12:00:00] Searching...\n" ∧
      ((Demo.clientOf Demo.rewritingServer).GetResearchEvents Demo.eventsLib "r1"
          ((Demo.clientOf Demo.rewritingServer).GetResearch Demo.eventsLib "r1"
            Demo.afterFirstRound.world).2).1 = .ok Demo.rewrittenEvents ∧
      (pollRound Demo.eventsLib (Demo.clientOf Demo.rewritingServer) "r1"
          Demo.afterFirstRound).1.out
        = "[12:00:00] Searching...\n[12:00:01] Analyzing...\n" ∧
      (pollRound Demo.eventsLib (Demo.clientOf Demo.rewritingServer) "r1"
          Demo.afterFirstRound).1.seenEvents = 2 :=
  have h := (pollRound_positional_diff Demo.eventsLib (Demo.clientOf Demo.rewritingServer) "r1"
    Demo.afterFirstRound (Demo.job "completed") Demo.rewrittenEvents rfl rfl).1 (by decide)
  ⟨rfl, rfl, rfl, h.1.trans rfl, h.2.trans rfl⟩


/-! ## The loop invariant -/

theorem roundsRan_of_le (lib : Lib) (c : Client) (id : String) (w : World) (m n : Nat)
    (h : RoundsRan lib c id w n) (hm : m ≤ n) : RoundsRan lib c id w m := by
  intro i hi
  obtain ⟨res, hs, hrun⟩ := h i (by omega)
  exact ⟨res, hs, fun hlt => hrun (by omega)⟩

theorem roundsRan_running (lib : Lib) (c : Client) (id : String) (w : World) (n : Nat)
    (h : RoundsRan lib c id w (n + 1)) :
    (∀ i, i < n → StillRunning (statusFetch lib c id w i)) ∧
      ∃ res, statusFetch lib c id w n = .ok res := by
  constructor
  · intro i hi
    obtain ⟨res, hs, hrun⟩ := h i (by omega)
    exact ⟨res, hs, hrun (by omega)⟩
  · obtain ⟨res, hs, -⟩ := h n (by omega)
    exact ⟨res, hs⟩

theorem maxFetched_mono (lib : Lib) (c : Client) (id : String) (w : World) (m n : Nat)
    (h : m ≤ n) : maxFetched lib c id w m ≤ maxFetched lib c id w n := by
  induction n with
  | zero =>
    have : m = 0 := by omega
    subst this
    exact Nat.le_refl _
  | succ k ih =>
    by_cases hk : m ≤ k
    · exact Nat.le_trans (ih hk) (by simp [maxFetched])
    · have : m = k + 1 := by omega
      subst this
      exact Nat.le_refl _

/-- The state after `n` rounds made in full: the count is the greatest length
    fetched, and the text is that of the positionally written events, as many
    as the count. -/
theorem pollResearch_invariant (lib : Lib) (c : Client) (id : String) (w : World) (n : Nat)
    (h : RoundsRan lib c id w n) :
    (pollResearch lib c id w n).1.seenEvents = maxFetched lib c id w n ∧
      (pollResearch lib c id w n).1.out = renderEvents (writtenEvents lib c id w n) ∧
      (writtenEvents lib c id w n).length = (pollResearch lib c id w n).1.seenEvents := by
  induction n with
  | zero => exact ⟨rfl, rfl, rfl⟩
  | succ k ih =>
    obtain ⟨hseen, hout, hlen⟩ := ih (roundsRan_of_le lib c id w k (k + 1) h (by omega))
    obtain ⟨hrunning, res, hs⟩ := roundsRan_running lib c id w k h
    obtain ⟨hrun, hw⟩ := pollResearch_running lib c id w k hrunning
    rw [pollResearch_next_ok lib c id w k res hrun hw hs]
    simp only [maxFetched, fetchedLength, writtenEvents]
    cases he : eventsFetch lib c id w k with
    | error e =>
      simp only [mergeEvents]
      exact ⟨by rw [hseen]; simp, hout, hlen⟩
    | ok events =>
      simp only
      by_cases hgt : events.length > (pollResearch lib c id w k).1.seenEvents
      · rw [(mergeEvents_ok _ events _).1 hgt]
        simp only
        refine ⟨?_, ?_, ?_⟩
        · rw [← hseen]; omega
        · rw [renderEvents_append, hout, hlen]
        · rw [List.length_append, List.length_drop, hlen]; omega
      · have hle : events.length ≤ (pollResearch lib c id w k).1.seenEvents := by omega
        rw [(mergeEvents_ok _ events _).2 hle]
        simp only
        have hdrop : events.drop (writtenEvents lib c id w k).length = [] := by
          apply List.drop_eq_nil_of_le
          rw [hlen]; exact hle
        refine ⟨?_, ?_, ?_⟩
        · rw [← hseen]; omega
        · rw [hdrop, List.append_nil]; exact hout
        · rw [hdrop, List.append_nil]; exact hlen

/-- C24: after `n` rounds made in full, whatever the server sent, the count of
    emitted events is the greatest length among the event lists fetched so
    far (`0` if none), it is at least the count after any earlier round, and
    the text written is one line for each of exactly that many events.  A
    round whose list is not longer than the count (a list that shrank, say)
    writes nothing, whatever the list holds. -/
theorem pollResearch_count_is_max_length (lib : Lib) (c : Client) (id : String) (w : World)
    (n : Nat) (hran : RoundsRan lib c id w n) :
    (pollResearch lib c id w n).1.seenEvents = maxFetched lib c id w n ∧
      (∀ m, m ≤ n →
        (pollResearch lib c id w m).1.seenEvents ≤ (pollResearch lib c id w n).1.seenEvents) ∧
      (pollResearch lib c id w n).1.out = renderEvents (writtenEvents lib c id w n) ∧
      (writtenEvents lib c id w n).length = (pollResearch lib c id w n).1.seenEvents ∧
      (∀ m events, m < n → eventsFetch lib c id w m = .ok events →
        events.length ≤ (pollResearch lib c id w m).1.seenEvents →
        (pollResearch lib c id w (m + 1)).1.out = (pollResearch lib c id w m).1.out ∧
        (pollResearch lib c id w (m + 1)).1.seenEvents
          = (pollResearch lib c id w m).1.seenEvents) := by
  obtain ⟨hseen, hout, hlen⟩ := pollResearch_invariant lib c id w n hran
  refine ⟨hseen, ?_, hout, hlen, ?_⟩
  · intro m hm
    obtain ⟨hm1, -, -⟩ :=
      pollResearch_invariant lib c id w m (roundsRan_of_le lib c id w m n hran hm)
    rw [hm1, hseen]
    exact maxFetched_mono lib c id w m n hm
  · intro m events hm he hle
    have hran1 := roundsRan_of_le lib c id w (m + 1) n hran (by omega)
    obtain ⟨hrunning, res, hs⟩ := roundsRan_running lib c id w m hran1
    obtain ⟨hrun, hw⟩ := pollResearch_running lib c id w m hrunning
    rw [pollResearch_next_ok lib c id w m res hrun hw hs, he,
      (mergeEvents_ok _ events _).2 hle]
    exact ⟨rfl, rfl⟩

theorem pollResearch_count_is_max_length_witness :
    RoundsRan Demo.eventsLib (Demo.clientOf Demo.shrinkingServer) "r1" { sent := [] } 3 ∧
      maxFetched Demo.eventsLib (Demo.clientOf Demo.shrinkingServer) "r1" { sent := [] } 2 = 2 ∧
      (pollResearch Demo.eventsLib (Demo.clientOf Demo.shrinkingServer) "r1"
          { sent := [] } 2).1.out = "[12:00:00] Searching...\n[12:00:01] Analyzing...\n" ∧
      (pollResearch Demo.eventsLib (Demo.clientOf Demo.shrinkingServer) "r1"
          { sent := [] } 3).1.seenEvents = 3 ∧
      (pollResearch Demo.eventsLib (Demo.clientOf Demo.shrinkingServer) "r1"
          { sent := [] } 3).1.out
        = "[12:00:00] Searching...\n[12:00:01] Analyzing...\n[12:00:07] Third\n" :=
  have hran : RoundsRan Demo.eventsLib (Demo.clientOf Demo.shrinkingServer) "r1"
      { sent := [] } 3 := by
    intro i hi
    interval_cases i
    · exact ⟨Demo.job "searching", rfl, fun _ => ⟨by decide, by decide⟩⟩
    · exact ⟨Demo.job "searching", rfl, fun _ => ⟨by decide, by decide⟩⟩
    · exact ⟨Demo.job "completed", rfl, fun h => absurd h (by decide)⟩
  have h := pollResearch_count_is_max_length Demo.eventsLib (Demo.clientOf Demo.shrinkingServer)
    "r1" { sent := [] } 3 hran
  ⟨hran, rfl, rfl, h.1.trans rfl, h.2.2.1.trans rfl⟩


/-! ## fmt and output.Error -/

theorem percent_not_flagChar : isFlagChar '%' = false := by decide

theorem percent_not_opensWidthOrIndex : opensWidthOrIndex '%' = false := by decide

/-- The text already written is carried along by the scanning loop. -/
theorem scanFormat_out (format : List Char) :
    ∀ (directive : Option String) (args : List Arg) (out : String),
      scanFormat format directive args out =
        (scanFormat format directive args "").map
          (fun r => { out := out ++ r.out, rest := r.rest, cut := r.cut }) := by
  induction format with
  | nil =>
    intro directive args out
    cases directive <;> simp [scanFormat]
  | cons ch rest ih =>
    intro directive args out
    cases directive with
    | none =>
      by_cases hc : ch = '%'
      · simp only [scanFormat, hc, if_true]
        exact ih _ _ _
      · simp only [scanFormat, hc, if_false]
        rw [ih none args (out ++ String.singleton ch), ih none args ("" ++ String.singleton ch)]
        cases scanFormat rest none args "" <;> simp [String.append_assoc]
    | some d =>
      by_cases hc : ch = '%'
      · subst hc
        simp only [scanFormat, percent_not_flagChar, percent_not_opensWidthOrIndex,
          Bool.false_eq_true, if_false, if_true]
        rw [ih none args (out ++ "%"), ih none args ("" ++ "%")]
        cases scanFormat rest none args "" <;> simp [String.append_assoc]
      · by_cases hd : isFlagChar ch = true
        · simp only [scanFormat, hd, if_true]
          exact ih _ _ _
        · by_cases hw : opensWidthOrIndex ch = true
          · simp [scanFormat, hd, hw]
          · cases args with
            | nil =>
              simp only [scanFormat, hd, hw, hc, if_false]
              rw [ih none [] (out ++ _), ih none [] ("" ++ _)]
              cases scanFormat rest none [] "" <;> simp [String.append_assoc]
            | cons a more =>
              simp only [scanFormat, hd, hw, hc, if_false]
              rw [ih none more (out ++ _), ih none more ("" ++ _)]
              cases scanFormat rest none more "" <;> simp [String.append_assoc]

/-- Text without a percent sign in front of a format is copied as it is. -/
theorem scanFormat_literal (text : List Char) (h : '%' ∉ text) :
    ∀ (format : List Char) (args : List Arg) (out : String),
      scanFormat (text ++ format) none args out
        = scanFormat format none args (out ++ String.mk text) := by
  induction text with
  | nil =>
    intro format args out
    have : out ++ String.mk [] = out := by
      apply String.ext
      simp
    rw [this]
    rfl
  | cons ch rest ih =>
    intro format args out
    have hc : ch ≠ '%' := fun e => h (by simp [e])
    have hr : '%' ∉ rest := fun e => h (by simp [e])
    change scanFormat (ch :: (rest ++ format)) none args out = _
    simp only [scanFormat, hc, if_false]
    rw [ih hr]
    congr 1
    apply String.ext
    simp [String.singleton]

/-- A format that does not end inside a directive hands over to what follows
    it. -/
theorem scanFormat_append (format : List Char) (tail : List Char) :
    ∀ (directive : Option String) (args : List Arg) (out : String) (r : Scan),
      scanFormat format directive args out = some r → r.cut = false →
      scanFormat (format ++ tail) directive args out = scanFormat tail none r.rest r.out := by
  induction format with
  | nil =>
    intro directive args out r hr hcut
    cases directive with
    | none =>
      simp only [scanFormat, Option.some.injEq] at hr
      subst hr
      rfl
    | some d =>
      simp only [scanFormat, Option.some.injEq] at hr
      subst hr
      simp at hcut
  | cons ch rest ih =>
    intro directive args out r hr hcut
    change scanFormat (ch :: (rest ++ tail)) directive args out = _
    cases directive with
    | none =>
      by_cases hc : ch = '%'
      · simp only [scanFormat, hc, if_true] at hr ⊢
        exact ih _ _ _ r hr hcut
      · simp only [scanFormat, hc, if_false] at hr ⊢
        exact ih _ _ _ r hr hcut
    | some d =>
      by_cases hc : ch = '%'
      · subst hc
        simp only [scanFormat, percent_not_flagChar, percent_not_opensWidthOrIndex,
          Bool.false_eq_true, if_false, if_true] at hr ⊢
        exact ih _ _ _ r hr hcut
      · by_cases hd : isFlagChar ch = true
        · simp only [scanFormat, hd, if_true] at hr ⊢
          exact ih _ _ _ r hr hcut
        · by_cases hw : opensWidthOrIndex ch = true
          · simp [scanFormat, hd, hw] at hr
          · cases args with
            | nil =>
              simp only [scanFormat, hd, hw, hc, if_false] at hr ⊢
              exact ih _ _ _ r hr hcut
            | cons a more =>
              simp only [scanFormat, hd, hw, hc, if_false] at hr ⊢
              exact ih _ _ _ r hr hcut

/-- With a format that uses up exactly its operands, the documented text for
    `"Error: " + format + "\n"` is `Error: `, the documented text for the
    format and a newline. -/
theorem simpleSprintf_error_format (format : String) (args : List Arg)
    (h : ConsumesExactly format args) :
    ∃ text, simpleSprintf format args = some text ∧
      simpleSprintf ("Error: " ++ format ++ "\n") args = some ("Error: " ++ text ++ "\n") := by
  obtain ⟨r, hr, hcut, hrest⟩ := h
  have hdata : ("Error: " ++ format ++ "\n").data
      = "Error: ".data ++ (format.data ++ ['\n']) := by
    simp [String.data_append]
  have hr2 : scanFormat format.data none args ("" ++ String.mk "Error: ".data)
      = some { out := "Error: " ++ r.out, rest := r.rest, cut := r.cut } := by
    rw [scanFormat_out, hr]
    rfl
  have hscan : scanFormat ("Error: " ++ format ++ "\n").data none args ""
      = some { out := "Error: " ++ r.out ++ "\n", rest := [], cut := false } := by
    rw [hdata, scanFormat_literal "Error: ".data (by decide),
      scanFormat_append format.data ['\n'] none args _ _ hr2 hcut]
    simp only [hrest]
    simp [scanFormat, String.append_assoc]
    rfl
  refine ⟨r.out, ?_, ?_⟩
  · simp [simpleSprintf, hr, Scan.text, hrest]
  · unfold simpleSprintf
    rw [hscan]
    rfl

/-- For a formatter that follows the documented scan, and a format that uses
    up exactly its operands, the text for `"Error: " + format + "\n"` is
    `Error: `, the formatted message and a newline. -/
theorem fmt_error_format (fmt : Formatter) (hfmt : FollowsDocumentedScan fmt)
    (format : String) (args : List Arg) (h : ConsumesExactly format args) :
    fmt ("Error: " ++ format ++ "\n") args = "Error: " ++ fmt format args ++ "\n" := by
  obtain ⟨text, h1, h2⟩ := simpleSprintf_error_format format args h
  rw [hfmt _ _ _ h1, hfmt _ _ _ h2]

theorem documentedFmt_follows : FollowsDocumentedScan Demo.documentedFmt := by
  intro format args text h
  simp [Demo.documentedFmt, h]

/-- The form `Error("%v", err)` the commands use is the general form at the
    format `%v`. -/
theorem errorArgs_percent_v (fmt : Formatter) (hfmt : FollowsDocumentedScan fmt)
    (a : Arg) (p : Proc) :
    output.ErrorArgs fmt "%v" [a] p = output.Error (a.print "v") p := by
  unfold output.ErrorArgs output.Error
  rw [hfmt ("Error: " ++ "%v" ++ "\n") [a] ("Error: " ++ a.print "v" ++ "\n") rfl]

/-- C21 (as stated, fails): with an operand the format does not use, the note
    `%!(EXTRA int=1)` that ends the formatted message comes after the newline,
    and with a format that ends in a percent sign the appended newline is
    taken for the verb: what is written is not `Error: `, the formatted
    message and a newline. -/
theorem error_note_after_newline :
    (output.ErrorArgs Demo.documentedFmt "fail" [Demo.intOne] Demo.fresh).stderr
        = "Error: fail\n%!(EXTRA int=1)" ∧
      "Error: " ++ Demo.documentedFmt "fail" [Demo.intOne] ++ "\n"
        = "Error: fail%!(EXTRA int=1)\n" ∧
      (output.ErrorArgs Demo.documentedFmt "fail" [Demo.intOne] Demo.fresh).stderr
        ≠ Demo.fresh.stderr ++ ("Error: " ++ Demo.documentedFmt "fail" [Demo.intOne] ++ "\n") ∧
      (output.ErrorArgs Demo.documentedFmt "100%" [] Demo.fresh).stderr
        = "Error: 100%!\n(MISSING)" ∧
      "Error: " ++ Demo.documentedFmt "100%" [] ++ "\n" = "Error: 100%!(NOVERB)\n" := by
  refine ⟨rfl, rfl, by decide, rfl, rfl⟩

/-- C21 (amended): for every format and operands `output.Error` writes to
    Stderr exactly the text `fmt` makes of the format `"Error: " + format +
    "\n"`; when every directive of the format is a `%`, flags and a verb, the
    format uses up exactly its operands and does not end inside a directive,
    that text is `Error: `, the formatted message and a newline;
    `output.Error` writes nothing to Stdout and calls `ExitFunc` exactly once,
    with exit code 1. -/
theorem error_writes_stderr_and_exits (fmt : Formatter) (format : String) (args : List Arg)
    (p : Proc) :
    (output.ErrorArgs fmt format args p).stderr
        = p.stderr ++ fmt ("Error: " ++ format ++ "\n") args ∧
      (FollowsDocumentedScan fmt → ConsumesExactly format args →
        (output.ErrorArgs fmt format args p).stderr
          = p.stderr ++ ("Error: " ++ fmt format args ++ "\n")) ∧
      (output.ErrorArgs fmt format args p).stdout = p.stdout ∧
      (output.ErrorArgs fmt format args p).cmdOut = p.cmdOut ∧
      (output.ErrorArgs fmt format args p).world = p.world ∧
      (output.ErrorArgs fmt format args p).exitCalls = p.exitCalls ++ [1] := by
  refine ⟨rfl, ?_, rfl, rfl, rfl, rfl⟩
  intro hfmt h
  simp only [output.ErrorArgs]
  rw [fmt_error_format fmt hfmt format args h]

theorem error_writes_stderr_and_exits_witness :
    FollowsDocumentedScan Demo.documentedFmt ∧
      ConsumesExactly "something went %s" [Demo.strArg "wrong"] ∧
      (output.ErrorArgs Demo.documentedFmt "something went %s" [Demo.strArg "wrong"]
          Demo.fresh).stderr = "Error: something went wrong\n" ∧
      (output.ErrorArgs Demo.documentedFmt "something went %s" [Demo.strArg "wrong"]
          Demo.fresh).exitCalls = [1] :=
  ⟨documentedFmt_follows, ⟨_, rfl, rfl, rfl⟩,
   ((error_writes_stderr_and_exits Demo.documentedFmt "something went %s"
      [Demo.strArg "wrong"] Demo.fresh).2.1 documentedFmt_follows ⟨_, rfl, rfl, rfl⟩).trans rfl,
   (error_writes_stderr_and_exits Demo.documentedFmt "something went %s" [Demo.strArg "wrong"]
      Demo.fresh).2.2.2.2.2.trans rfl⟩

/-! ## The text of brainstorm -/

/-- C25 (the code at the failing input): for the session of
    `TestBrainstormCmd`, whose one question has two options, the text depends
    on the order in which `range` visits the option map: visiting the entries
    in one order or in the other gives two different texts for the same
    session. -/
theorem brainstorm_text_depends_on_map_order :
    (brainstormCmd Demo.brainstormLib id (.ok (Demo.clientOf Demo.growingServer))
        "test query" Demo.fresh).cmdOut
      = "Brainstorm session: bs-1\n\n1. What scope?\n   1) Narrow\n   2) Broad\n\n"
        ++ "Use this session ID with: caesar research create --brainstorm bs-1 \"your query\"\n" ∧
      (brainstormCmd Demo.brainstormLib List.reverse (.ok (Demo.clientOf Demo.growingServer))
        "test query" Demo.fresh).cmdOut
      = "Brainstorm session: bs-1\n\n1. What scope?\n   2) Broad\n   1) Narrow\n\n"
        ++ "Use this session ID with: caesar research create --brainstorm bs-1 \"your query\"\n" ∧
      (brainstormCmd Demo.brainstormLib id (.ok (Demo.clientOf Demo.growingServer))
        "test query" Demo.fresh).cmdOut
      ≠ (brainstormCmd Demo.brainstormLib List.reverse (.ok (Demo.clientOf Demo.growingServer))
        "test query" Demo.fresh).cmdOut := by
  refine ⟨rfl, rfl, by decide⟩

end Caesar
